import Mathlib

/-!
Shallow embedding of `src/export.py`: the conversation reconstruction and
rendering pipeline of the claude-code-chat-export tool.  Records of the
line-delimited JSON log are modelled as `JVal` values; the two passes of
`parse_messages`, the Markdown-subset transducer `md_to_html`, the tool
formatters and the result-rendering fragments of the renderers are
translated function by function.  Fallible Python operations (subscripting,
attribute access on a wrong type, iteration over a non-iterable,
concatenation of a non-string) are modelled in `Except Unit`.
-/

/-- A JSON value as produced by `json.loads` on one log line.  Numbers are
restricted to integers: every field the pipeline inspects is a string, a
list or an object, and no claim touches fractional numbers. -/
inductive JVal where
  | null
  | bool (b : Bool)
  | num (n : Int)
  | str (s : String)
  | arr (xs : List JVal)
  | obj (kvs : List (String × JVal))

/-- Python truthiness `bool(v)` of a JSON value. -/
def pyTruthy : JVal → Bool
  | .null => false
  | .bool b => b
  | .num n => n != 0
  | .str s => s != ""
  | .arr xs => !xs.isEmpty
  | .obj kvs => !kvs.isEmpty

/-- Python `v == "lit"` for a JSON value and a string literal. -/
def JVal.isStr : JVal → String → Bool
  | .str t, s => t == s
  | _, _ => false

/-- Equality test used for dictionary keys.  Python raises TypeError before a
list or dict is ever used as a key (unhashable), so the container cases are
unreachable in successful runs and compare unequal here. -/
def scalarEq : JVal → JVal → Bool
  | .null, .null => true
  | .bool a, .bool b => a == b
  | .num a, .num b => a == b
  | .str a, .str b => a == b
  | _, _ => false

/-- Values Python cannot hash (lists and dicts); using one as a dictionary
key raises TypeError. -/
def unhashable : JVal → Bool
  | .arr _ => true
  | .obj _ => true
  | _ => false

/-- Key lookup in a parsed JSON object.  `json.loads` produces dicts with
unique keys, modelled as association lists in file order. -/
def getk : List (String × JVal) → String → Option JVal
  | [], _ => none
  | (k', v) :: kvs, k => if k' == k then some v else getk kvs k

/-- Python `d[k]`: KeyError when the key is absent, TypeError when `d` is not
a dict. -/
def pyGetItem (d : JVal) (k : String) : Except Unit JVal :=
  match d with
  | .obj kvs =>
    match getk kvs k with
    | some v => .ok v
    | none => .error ()
  | _ => .error ()

/-- Python `d.get(k, default)`: raises when `d` is not a dict. -/
def pyGet (d : JVal) (k : String) (dflt : JVal) : Except Unit JVal :=
  match d with
  | .obj kvs => .ok ((getk kvs k).getD dflt)
  | _ => .error ()

/-- Python `d.get(k)` (None when absent) on a known dict. -/
def objGet? (kvs : List (String × JVal)) (k : String) : JVal :=
  (getk kvs k).getD .null

/-- Python `d.get(k, default)` on a known dict. -/
def objGetD (kvs : List (String × JVal)) (k : String) (dflt : JVal) : JVal :=
  (getk kvs k).getD dflt

/-- Python `for x in v`: lists yield their elements, dicts their keys,
strings their characters (as one-character strings); other values raise
TypeError. -/
def pyIter : JVal → Except Unit (List JVal)
  | .arr xs => .ok xs
  | .obj kvs => .ok (kvs.map (fun kv => .str kv.1))
  | .str s => .ok (s.data.map (fun c => .str (String.singleton c)))
  | _ => .error ()

/-- ASCII whitespace stripped by Python `str.strip()` (the logs are ASCII;
unicode whitespace is not modelled). -/
def isPySpace (c : Char) : Bool :=
  c == ' ' || c == '\t' || c == '\n' || c == '\r' || c == '\x0b' || c == '\x0c'

/-- Python `str.strip()` on a character list. -/
def stripChars (l : List Char) : List Char :=
  ((l.dropWhile isPySpace).reverse.dropWhile isPySpace).reverse

/-- Python `str.strip()`. -/
def pyStrip (s : String) : String := ⟨stripChars s.data⟩

/-- Substring test on character lists. -/
def hasSub (needle : List Char) : List Char → Bool
  | [] => needle.isEmpty
  | c :: cs => needle.isPrefixOf (c :: cs) || hasSub needle cs

/-- Python `x in y` for strings. -/
def strIn (x y : String) : Bool := hasSub x.data y.data

/-- Python `lit in v` for a string literal `lit`: substring test on a string,
membership on a list, key membership on a dict; TypeError otherwise. -/
def pyInJ (lit : String) : JVal → Except Unit Bool
  | .str s => .ok (strIn lit s)
  | .arr xs => .ok (xs.any (fun x => x.isStr lit))
  | .obj kvs => .ok (kvs.any (fun kv => kv.1 == lit))
  | _ => .error ()

mutual

/-- Python `str(v)` as used by f-string interpolation: strings pass through,
None/True/False/ints print their Python form, containers print via `repr`
of their elements (string escaping inside `repr` is not modelled; no log
field rendered by the claims is a container). -/
def pyStr : JVal → String
  | .null => "None"
  | .bool b => if b then "True" else "False"
  | .num n => toString n
  | .str s => s
  | .arr xs => "[" ++ pyReprList xs ++ "]"
  | .obj kvs => "\x7b" ++ pyReprKVs kvs ++ "\x7d"

/-- Python `repr(v)` for container elements (strings quoted). -/
def pyRepr : JVal → String
  | .null => "None"
  | .bool b => if b then "True" else "False"
  | .num n => toString n
  | .str s => "\x27" ++ s ++ "\x27"
  | .arr xs => "[" ++ pyReprList xs ++ "]"
  | .obj kvs => "\x7b" ++ pyReprKVs kvs ++ "\x7d"

/-- Comma-separated `repr` of list elements. -/
def pyReprList : List JVal → String
  | [] => ""
  | [x] => pyRepr x
  | x :: xs => pyRepr x ++ ", " ++ pyReprList xs

/-- Comma-separated `repr` of dict entries. -/
def pyReprKVs : List (String × JVal) → String
  | [] => ""
  | [kv] => "\x27" ++ kv.1 ++ "\x27: " ++ pyRepr kv.2
  | kv :: kvs => "\x27" ++ kv.1 ++ "\x27: " ++ pyRepr kv.2 ++ ", " ++ pyReprKVs kvs

end

/-- One resolved tool invocation: the `tool_entry` dict built at
src/export.py:342-348. -/
structure ToolUse where
  name : JVal
  input : JVal
  id : JVal
  result : String
  result_images : List String

/-- One reconstructed conversation turn: the `turn` dict built at
src/export.py:317-323. -/
structure Turn where
  role : JVal
  timestamp : JVal
  texts : List String
  tool_uses : List ToolUse
  images : List String

/-- The two correlation dicts of the first pass (src/export.py:260-261):
`tool_results_map` and `tool_result_images`. -/
structure ResultMaps where
  texts : List (JVal × String)
  images : List (JVal × List String)

/-- Dictionary lookup `m.get(k)` keyed by tool_use_id values. -/
def kvGet {α : Type} : List (JVal × α) → JVal → Option α
  | [], _ => none
  | (k', v) :: m, k => if scalarEq k' k then some v else kvGet m k

/-- Dictionary assignment `m[k] = v`. -/
def kvSet {α : Type} : List (JVal × α) → JVal → α → List (JVal × α)
  | [], k, v => [(k, v)]
  | (k', v') :: m, k, v =>
    if scalarEq k' k then (k', v) :: m else (k', v') :: kvSet m k v

/-- Image data URI built from a base64 source dict (the f-strings at
src/export.py:295 and :354). -/
def dataUri (skvs : List (String × JVal)) : String :=
  "data:" ++ pyStr (objGetD skvs "media_type" (.str "image/jpeg")) ++ ";base64," ++
    pyStr (objGetD skvs "data" (.str ""))

/-- Loop over the sub-blocks of a tool_result's list content
(src/export.py:288-296), accumulating the result text (each text sub-block
followed by a newline) and the image data URIs.  A text sub-block whose
`text` value is not a string raises (string concatenation); an image
sub-block whose `source` is not a dict raises (`src.get`). -/
def resultPayloadList : List JVal → String → List String → Except Unit (String × List String)
  | [], txt, imgs => .ok (txt, imgs)
  | rc :: rcs, txt, imgs =>
    match rc with
    | .obj kvs =>
      if (objGet? kvs "type").isStr "text" then
        match objGetD kvs "text" (.str "") with
        | .str t => resultPayloadList rcs (txt ++ t ++ "\n") imgs
        | _ => .error ()
      else if (objGet? kvs "type").isStr "image" then
        match objGetD kvs "source" (.obj []) with
        | .obj skvs =>
          if (objGet? skvs "type").isStr "base64" then
            resultPayloadList rcs txt (imgs ++ [dataUri skvs])
          else resultPayloadList rcs txt imgs
        | _ => .error ()
      else resultPayloadList rcs txt imgs
    | _ => resultPayloadList rcs txt imgs

/-- Text and images extracted from one tool_result block's `content`
(src/export.py:285-298): a list is folded by `resultPayloadList`, a plain
string is taken as the text, anything else leaves both empty. -/
def resultPayload : JVal → Except Unit (String × List String)
  | .arr rcs => resultPayloadList rcs "" []
  | .str s => .ok (s, [])
  | _ => .ok ("", [])

/-- Correlator handling of one content block (src/export.py:280-302): only
dict blocks of type tool_result with a truthy tool_use_id contribute; the
stripped text is assigned (overwriting any earlier entry) and the images
only when the block carried some. -/
def collectBlock (maps : ResultMaps) (block : JVal) : Except Unit ResultMaps :=
  match block with
  | .obj kvs =>
    if (objGet? kvs "type").isStr "tool_result" then do
      let tuid := objGetD kvs "tool_use_id" (.str "")
      let (txt, imgs) ← resultPayload (objGetD kvs "content" (.str ""))
      if pyTruthy tuid then
        if unhashable tuid then .error ()
        else
          .ok ⟨kvSet maps.texts tuid (pyStrip txt),
               if imgs.isEmpty then maps.images else kvSet maps.images tuid imgs⟩
      else .ok maps
    else .ok maps
  | _ => .ok maps

/-- Correlator fold over the blocks of one record. -/
def collectBlocks : ResultMaps → List JVal → Except Unit ResultMaps
  | maps, [] => .ok maps
  | maps, b :: bs => do
    let maps' ← collectBlock maps b
    collectBlocks maps' bs

/-- Correlator handling of one record (src/export.py:273-279): `d["type"]`
raises when the record is not a dict or lacks the key; only records of type
"user" are scanned; string content is skipped. -/
def collectRecord (maps : ResultMaps) (d : JVal) : Except Unit ResultMaps := do
  let ty ← pyGetItem d "type"
  if !(ty.isStr "user") then .ok maps
  else do
    let msg ← pyGet d "message" (.obj [])
    let content ← pyGet msg "content" (.arr [])
    match content with
    | .str _ => .ok maps
    | _ => do
      let blocks ← pyIter content
      collectBlocks maps blocks

/-- The full correlator pass (first pass of parse_messages). -/
def collectToolResults : ResultMaps → List JVal → Except Unit ResultMaps
  | maps, [] => .ok maps
  | maps, d :: ds => do
    let maps' ← collectRecord maps d
    collectToolResults maps' ds

/-- Suffix of `l` after the first occurrence of `needle`, if any. -/
def afterSub (needle : List Char) : List Char → Option (List Char)
  | [] => if needle.isEmpty then some [] else none
  | c :: cs =>
    if needle.isPrefixOf (c :: cs) then some ((c :: cs).drop needle.length)
    else afterSub needle cs

/-- The regex sub at src/export.py:333 deleting every
`<system-reminder>...</system-reminder>` span (DOTALL, non-greedy): each
opening marker with a later closing marker is removed together with the
shortest enclosed span; an opening marker without a closing one stays.  The
fuel argument (instantiated with the input length) makes the scan total;
every step consumes at least one character, so the fuel never runs out. -/
def stripAnnots : Nat → List Char → List Char
  | 0, cs => cs
  | _ + 1, [] => []
  | fuel + 1, c :: cs =>
    if ("<system-reminder>".data).isPrefixOf (c :: cs) then
      match afterSub ("</system-reminder>".data) ((c :: cs).drop 17) with
      | some rest => stripAnnots fuel rest
      | none => c :: stripAnnots fuel cs
    else c :: stripAnnots fuel cs

/-- The cleaned user text of src/export.py:333 before its final strip. -/
def removeSystemReminders (s : String) : String :=
  ⟨stripAnnots s.data.length s.data⟩

/-- The empty turn a record starts from (src/export.py:317-323). -/
def emptyTurn (role ts : JVal) : Turn := ⟨role, ts, [], [], []⟩

/-- Turn-building handling of one content block (src/export.py:325-355).
Text blocks with a non-string text value raise (`in` / `re.sub` /
`str.strip` on a non-string); a tool_use with an unhashable id raises at
the dict lookup; an image whose source is not a dict raises at `src.get`. -/
def buildBlock (maps : ResultMaps) (turn : Turn) (block : JVal) : Except Unit Turn :=
  match block with
  | .obj kvs =>
    let btype := objGetD kvs "type" (.str "")
    if btype.isStr "text" then do
      let tv := objGetD kvs "text" (.str "")
      let inRem ← pyInJ "<system-reminder>" tv
      if inRem && turn.role.isStr "user" then
        match tv with
        | .str text =>
          let cleaned := pyStrip (removeSystemReminders text)
          if cleaned != "" then .ok { turn with texts := turn.texts ++ [cleaned] }
          else .ok turn
        | _ => .error ()
      else
        match tv with
        | .str text =>
          if pyStrip text != "" then .ok { turn with texts := turn.texts ++ [text] }
          else .ok turn
        | _ => .error ()
    else if btype.isStr "tool_use" then
      let tuid := objGetD kvs "id" (.str "")
      if unhashable tuid then .error ()
      else
        .ok { turn with tool_uses := turn.tool_uses ++
          [⟨objGetD kvs "name" (.str "unknown"), objGetD kvs "input" (.obj []), tuid,
            (kvGet maps.texts tuid).getD "", (kvGet maps.images tuid).getD []⟩] }
    else if btype.isStr "image" then
      match objGetD kvs "source" (.obj []) with
      | .obj skvs =>
        if (objGet? skvs "type").isStr "base64" then
          .ok { turn with images := turn.images ++ [dataUri skvs] }
        else .ok turn
      | _ => .error ()
    else .ok turn
  | _ => .ok turn

/-- Turn-building fold over the blocks of one record. -/
def buildBlocks (maps : ResultMaps) : Turn → List JVal → Except Unit Turn
  | turn, [] => .ok turn
  | turn, b :: bs => do
    let turn' ← buildBlock maps turn b
    buildBlocks maps turn' bs

/-- The visibility filter (src/export.py:357-365): a user turn is kept when
it has a text or an image, an assistant turn when it has a text, a tool use
or an image; a turn whose role is neither is dropped. -/
def visibleTurn (t : Turn) : Bool :=
  if t.role.isStr "user" then !t.texts.isEmpty || !t.images.isEmpty
  else if t.role.isStr "assistant" then
    !t.texts.isEmpty || !t.tool_uses.isEmpty || !t.images.isEmpty
  else false

/-- Turn construction for one record before the visibility filter
(src/export.py:305-355): `d["type"]` raises when the record lacks a type;
non-user/assistant records are skipped (`none`); string content is wrapped
into a single text block. -/
def buildTurnOfRecord (maps : ResultMaps) (d : JVal) : Except Unit (Option Turn) := do
  let ty ← pyGetItem d "type"
  if !(ty.isStr "user") && !(ty.isStr "assistant") then .ok none
  else do
    let msg ← pyGet d "message" (.obj [])
    let role ← pyGet msg "role" ty
    let content0 ← pyGet msg "content" (.arr [])
    let ts ← pyGet d "timestamp" (.str "")
    let content := match content0 with
      | .str s => JVal.arr [.obj [("type", .str "text"), ("text", .str s)]]
      | c => c
    let blocks ← pyIter content
    let turn ← buildBlocks maps (emptyTurn role ts) blocks
    .ok (some turn)

/-- Turn construction for one record (src/export.py:305-365): the built
turn is kept only when visible. -/
def buildRecord (maps : ResultMaps) (d : JVal) : Except Unit (Option Turn) := do
  let o ← buildTurnOfRecord maps d
  match o with
  | some turn => if visibleTurn turn then .ok (some turn) else .ok none
  | none => .ok none

/-- The turn-building pass (second pass of parse_messages), keeping visible
turns in file order. -/
def buildTurns (maps : ResultMaps) : List JVal → Except Unit (List Turn)
  | [] => .ok []
  | d :: ds => do
    let o ← buildRecord maps d
    let rest ← buildTurns maps ds
    match o with
    | some t => .ok (t :: rest)
    | none => .ok rest

/-- `parse_messages` (src/export.py:256-367) on the already-deserialized
records: the correlator pass followed by the turn-building pass.  File
reading and the dropping of undeserializable lines happen before this
point and are outside the embedding. -/
def parse_messages (records : List JVal) : Except Unit (List Turn) := do
  let maps ← collectToolResults ⟨[], []⟩ records
  buildTurns maps records

/-- The backtick character. -/
def btChar : Char := Char.ofNat 96

/-- The triple-backtick fence delimiter. -/
def fence3 : List Char := [btChar, btChar, btChar]

/-- Expansion of one character under Python `html.escape` (quote=True):
the five characters `& < > " '` become entity references.  The sequential
`str.replace` calls of html.escape never rewrite each other's output, so a
character-wise map is equivalent. -/
def escapeChar (c : Char) : List Char :=
  if c == '&' then "&amp;".data
  else if c == '<' then "&lt;".data
  else if c == '>' then "&gt;".data
  else if c == '"' then "&quot;".data
  else if c == Char.ofNat 39 then "&#x27;".data
  else [c]

/-- Python `html.escape` on a character list (src/export.py:122). -/
def escapeHtmlL (l : List Char) : List Char := (l.map escapeChar).flatten

/-- First occurrence split: `l = pre ++ needle ++ post`. -/
def splitSub (needle : List Char) : List Char → Option (List Char × List Char)
  | [] => if needle.isEmpty then some ([], []) else none
  | c :: cs =>
    if needle.isPrefixOf (c :: cs) then some ([], (c :: cs).drop needle.length)
    else
      match splitSub needle cs with
      | some (pre, post) => some (c :: pre, post)
      | none => none

/-- Characters matched by the regex class `\w` (the log text is ASCII). -/
def isWordChar (c : Char) : Bool := c.isAlphanum || c == '_'

/-- The fenced-code-block rewrite (src/export.py:123-126), triple-backtick regex
with an optional language word, a newline, and a DOTALL non-greedy body: at each position, an opening fence
followed by an optional language word, a newline and the shortest body up
to a closing fence becomes a pre/code element (the language is dropped); a
position where this fails emits one character and the scan moves on.  Fuel
is instantiated with the input length; every step consumes at least one
character. -/
def codeBlockPass : Nat → List Char → List Char
  | 0, cs => cs
  | _ + 1, [] => []
  | fuel + 1, c :: cs =>
    if fence3.isPrefixOf (c :: cs) then
      match ((c :: cs).drop 3).dropWhile isWordChar with
      | '\n' :: rest =>
        match splitSub fence3 rest with
        | some (body, after) =>
          "<pre class=\"code-block\"><code>".data ++ body ++ "</code></pre>".data ++
            codeBlockPass fuel after
        | none => c :: codeBlockPass fuel cs
      | _ => c :: codeBlockPass fuel cs
    else c :: codeBlockPass fuel cs

/-- The inline-code rewrite (src/export.py:127), regex `` `([^`]+)` ``: a
backtick, a nonempty run of non-backticks and a closing backtick become an
inline code element. -/
def inlineCodePass : Nat → List Char → List Char
  | 0, cs => cs
  | _ + 1, [] => []
  | fuel + 1, c :: cs =>
    if c == btChar then
      match cs.dropWhile (fun ch => !(ch == btChar)) with
      | _ :: rest =>
        let content := cs.takeWhile (fun ch => !(ch == btChar))
        if content.isEmpty then c :: inlineCodePass fuel cs
        else "<code class=\"inline-code\">".data ++ content ++ "</code>".data ++
          inlineCodePass fuel rest
      | [] => c :: inlineCodePass fuel cs
    else c :: inlineCodePass fuel cs

/-- Scan for the earliest `**` in the tail of a bold candidate; the skipped
characters may not contain a newline (the regex `.` does not cross lines
here). -/
def starsClose : List Char → Option (List Char × List Char)
  | c1 :: c2 :: rest =>
    if c1 == '*' && c2 == '*' then some ([], rest)
    else if c1 == '\n' then none
    else
      match starsClose (c2 :: rest) with
      | some (p, r) => some (c1 :: p, r)
      | none => none
  | _ => none

/-- Shortest nonempty newline-free content followed by `**`. -/
def boldClose : List Char → Option (List Char × List Char)
  | [] => none
  | c :: cs =>
    if c == '\n' then none
    else
      match starsClose cs with
      | some (p, r) => some (c :: p, r)
      | none => none

/-- The bold rewrite (src/export.py:128), regex `\*\*(.+?)\*\*`. -/
def boldPass : Nat → List Char → List Char
  | 0, cs => cs
  | _ + 1, [] => []
  | fuel + 1, c :: cs =>
    if ("**".data).isPrefixOf (c :: cs) then
      match boldClose ((c :: cs).drop 2) with
      | some (content, rest) =>
        "<strong>".data ++ content ++ "</strong>".data ++ boldPass fuel rest
      | none => c :: boldPass fuel cs
    else c :: boldPass fuel cs

/-- One line under a heading rewrite `^#+ (.+)$` (MULTILINE): a line
consisting of the marker and a nonempty remainder is wrapped in the tag. -/
def headingLine (pre openT closeT : List Char) (line : List Char) : List Char :=
  if pre.isPrefixOf line && !(line.drop pre.length).isEmpty then
    openT ++ line.drop pre.length ++ closeT
  else line

/-- A line-anchored MULTILINE rewrite applied line by line
(src/export.py:129-132 and :157). -/
def mapLines (f : List Char → List Char) (l : List Char) : List Char :=
  List.intercalate ['\n'] ((List.splitOn '\n' l).map f)

/-- A table separator row: every cell nonempty and made of dashes/colons
(`re.match(r'^[-:]+$', c)` on every cell, src/export.py:141). -/
def isSepCells (cells : List (List Char)) : Bool :=
  cells.all (fun c => !c.isEmpty && c.all (fun ch => ch == '-' || ch == ':'))

/-- The cells of a pipe row: `stripped.split('|')[1:-1]`, each stripped. -/
def pipeCells (stripped : List Char) : List (List Char) :=
  (((List.splitOn '|' stripped).drop 1).dropLast).map stripChars

/-- A pipe-delimited table line: contains `|` and starts and ends with it
(tested on the stripped line, src/export.py:139). -/
def isPipeLine (stripped : List Char) : Bool :=
  hasSub ['|'] stripped && ['|'].isPrefixOf stripped &&
    (stripped.getLast? == some '|')

/-- Header row markup for a table's cells. -/
def thRow (cells : List (List Char)) : List Char :=
  "<tr>".data ++ ((cells.map (fun c => "<th>".data ++ c ++ "</th>".data)).flatten) ++ "</tr>".data

/-- Body row markup for a table's cells. -/
def tdRow (cells : List (List Char)) : List Char :=
  "<tr>".data ++ ((cells.map (fun c => "<td>".data ++ c ++ "</td>".data)).flatten) ++ "</tr>".data

/-- The table grouping loop over lines (src/export.py:134-155): separator
rows are dropped; a pipe row met outside a table opens one and becomes the
header row; later pipe rows are body rows; a non-pipe line closes an open
table and passes through. -/
def tableLoop : Bool → List (List Char) → List (List Char)
  | inTable, [] => if inTable then ["</table>".data] else []
  | inTable, line :: rest =>
    let stripped := stripChars line
    if isPipeLine stripped then
      let cells := pipeCells stripped
      if isSepCells cells then tableLoop inTable rest
      else if inTable then tdRow cells :: tableLoop true rest
      else "<table class=\"md-table\">".data :: thRow cells :: tableLoop true rest
    else if inTable then "</table>".data :: line :: tableLoop false rest
    else line :: tableLoop false rest

/-- The table pass: split into lines, run the loop, rejoin. -/
def tablePass (l : List Char) : List Char :=
  List.intercalate ['\n'] (tableLoop false (List.splitOn '\n' l))

/-- Earliest occurrence of `needle` with no newline among the skipped
characters; returns the skipped span and the rest after the needle. -/
def closeScan (needle : List Char) : List Char → Option (List Char × List Char)
  | [] => if needle.isEmpty then some ([], []) else none
  | c :: cs =>
    if needle.isPrefixOf (c :: cs) then some ([], (c :: cs).drop needle.length)
    else if c == '\n' then none
    else
      match closeScan needle cs with
      | some (p, r) => some (c :: p, r)
      | none => none

/-- One list item `<li>.*?</li>\n?` at the start of the input; returns the
matched text (with its optional trailing newline) and the rest. -/
def liOne (l : List Char) : Option (List Char × List Char) :=
  if ("<li>".data).isPrefixOf l then
    match closeScan ("</li>".data) (l.drop 4) with
    | some (content, rest) =>
      let m := "<li>".data ++ content ++ "</li>".data
      match rest with
      | c :: rest' => if c == '\n' then some (m ++ ['\n'], rest') else some (m, rest)
      | [] => some (m, [])
    | none => none
  else none

/-- Greedy run of one or more consecutive list items. -/
def liRun : Nat → List Char → Option (List Char × List Char)
  | 0, _ => none
  | fuel + 1, l =>
    match liOne l with
    | some (m, rest) =>
      match liRun fuel rest with
      | some (m2, rest2) => some (m ++ m2, rest2)
      | none => some (m, rest)
    | none => none

/-- The list wrapping rewrite (src/export.py:158), regex
`(<li>.*?</li>\n?)+`: each maximal run of list items (with their joining
newlines) is wrapped in one ul element. -/
def ulPass : Nat → List Char → List Char
  | 0, cs => cs
  | _ + 1, [] => []
  | fuel + 1, c :: cs =>
    match liRun (fuel + 1) (c :: cs) with
    | some (m, rest) => "<ul>".data ++ m ++ "</ul>".data ++ ulPass fuel rest
    | none => c :: ulPass fuel cs

/-- The link rewrite (src/export.py:159), regex
`\[([^\]]+)\]\(([^)]+)\)`. -/
def linkPass : Nat → List Char → List Char
  | 0, cs => cs
  | _ + 1, [] => []
  | fuel + 1, c :: cs =>
    if c == '[' then
      match cs.dropWhile (fun ch => !(ch == ']')) with
      | _ :: rest2 =>
        let txt := cs.takeWhile (fun ch => !(ch == ']'))
        if txt.isEmpty then c :: linkPass fuel cs
        else
          match rest2 with
          | c2 :: rest3 =>
            if c2 == '(' then
              match rest3.dropWhile (fun ch => !(ch == ')')) with
              | _ :: rest5 =>
                let url := rest3.takeWhile (fun ch => !(ch == ')'))
                if url.isEmpty then c :: linkPass fuel cs
                else
                  "<a href=\"".data ++ url ++ "\" target=\"_blank\">".data ++ txt ++
                    "</a>".data ++ linkPass fuel rest5
              | [] => c :: linkPass fuel cs
            else c :: linkPass fuel cs
          | [] => c :: linkPass fuel cs
      | [] => c :: linkPass fuel cs
    else c :: linkPass fuel cs

/-- The paragraph-break rewrite (src/export.py:160), regex `\n\n+`: each
maximal run of two or more newlines becomes a paragraph boundary. -/
def paraPass : Nat → List Char → List Char
  | 0, cs => cs
  | _ + 1, [] => []
  | fuel + 1, c :: cs =>
    if c == '\n' then
      match cs with
      | c2 :: _ =>
        if c2 == '\n' then "</p><p>".data ++ paraPass fuel (cs.dropWhile (fun ch => ch == '\n'))
        else c :: paraPass fuel cs
      | [] => c :: paraPass fuel cs
    else c :: paraPass fuel cs

/-- Python `str.replace(needle, repl)`: left-to-right non-overlapping
replacement of every occurrence (also models the literal regex rewrites at
src/export.py:162-163). -/
def replaceAll : Nat → List Char → List Char → List Char → List Char
  | 0, _, _, cs => cs
  | _ + 1, _, _, [] => []
  | fuel + 1, needle, repl, c :: cs =>
    if !needle.isEmpty && needle.isPrefixOf (c :: cs) then
      repl ++ replaceAll fuel needle repl ((c :: cs).drop needle.length)
    else c :: replaceAll fuel needle repl cs

/-- The pipeline of md_to_html after the initial html.escape
(src/export.py:123-164), in the source's order: fenced code blocks, inline
code, bold, headings h4..h1, tables, list items, list wrapping, links,
paragraph breaks, the p-wrapping, empty-paragraph removal and the
horizontal rule. -/
def mdAfterEscape (t0 : List Char) : List Char :=
  let t1 := codeBlockPass t0.length t0
  let t2 := inlineCodePass t1.length t1
  let t3 := boldPass t2.length t2
  let t4 := mapLines (headingLine "#### ".data "<h4>".data "</h4>".data) t3
  let t5 := mapLines (headingLine "### ".data "<h3>".data "</h3>".data) t4
  let t6 := mapLines (headingLine "## ".data "<h2>".data "</h2>".data) t5
  let t7 := mapLines (headingLine "# ".data "<h1>".data "</h1>".data) t6
  let t8 := tablePass t7
  let t9 := mapLines (headingLine "- ".data "<li>".data "</li>".data) t8
  let t10 := ulPass t9.length t9
  let t11 := linkPass t10.length t10
  let t12 := paraPass t11.length t11
  let t13 := "<p>".data ++ t12 ++ "</p>".data
  let t14 := replaceAll t13.length ("<p></p>".data) [] t13
  replaceAll t14.length ("<p>---</p>".data) ("<hr>".data) t14

/-- `md_to_html` (src/export.py:121-164): html.escape first, then the
subset pipeline. -/
def md_to_html (text : String) : String :=
  ⟨mdAfterEscape (escapeHtmlL text.data)⟩

/-- Python `len(v)`: length of a string, list or dict; TypeError otherwise. -/
def pyLen : JVal → Except Unit Nat
  | .str s => .ok s.data.length
  | .arr xs => .ok xs.length
  | .obj kvs => .ok kvs.length
  | _ => .error ()

/-- Python `v[:n]` for a string or a list; TypeError otherwise. -/
def pySlice (n : Nat) : JVal → Except Unit JVal
  | .str s => .ok (.str ⟨s.data.take n⟩)
  | .arr xs => .ok (.arr (xs.take n))
  | _ => .error ()

/-- Python `s.split(sep)` for a nonempty separator: leftmost,
non-overlapping, empties kept. -/
def splitSubAll : Nat → List Char → List Char → List (List Char)
  | 0, _, cs => [cs]
  | _ + 1, _, [] => [[]]
  | fuel + 1, sep, c :: cs =>
    if !sep.isEmpty && sep.isPrefixOf (c :: cs) then
      [] :: splitSubAll fuel sep ((c :: cs).drop sep.length)
    else
      match splitSubAll fuel sep cs with
      | g :: gs => (c :: g) :: gs
      | [] => [[c]]

/-- Python `s.split(sep)` on strings. -/
def pySplit (sep s : String) : List String :=
  (splitSubAll s.data.length sep.data s.data).map (fun l => ⟨l⟩)

/-- Python `s.count(sub)`: non-overlapping occurrence count. -/
def countSubAux : Nat → List Char → List Char → Nat
  | 0, _, _ => 0
  | _ + 1, _, [] => 0
  | fuel + 1, sep, c :: cs =>
    if !sep.isEmpty && sep.isPrefixOf (c :: cs) then
      1 + countSubAux fuel sep ((c :: cs).drop sep.length)
    else countSubAux fuel sep cs

/-- Python `s.count(sub)` on strings. -/
def countSub (sub s : String) : Nat := countSubAux s.data.length sub.data s.data

/-- Python `l[i]`: IndexError when out of range. -/
def getIdx (l : List String) (i : Nat) : Except Unit String :=
  match l.get? i with
  | some x => .ok x
  | none => .error ()

/-- `tool_summary` (src/export.py:167-199): the collapsed-state one-line
label, dispatched on the tool name.  A Bash command beyond 80 characters is
cut to 77 plus an ellipsis; WebFetch URLs and Task descriptions are cut to
60 characters with no marker; an unknown non-string name raises at the
`'mcp__' in name` test. -/
def tool_summary (tool : ToolUse) : Except Unit String := do
  let name := tool.name
  let inp := tool.input
  if name.isStr "Write" then do
    let v ← pyGet inp "file_path" (.str "?")
    .ok ("Write -> " ++ pyStr v)
  else if name.isStr "Read" then do
    let v ← pyGet inp "file_path" (.str "?")
    .ok ("Read -> " ++ pyStr v)
  else if name.isStr "Edit" then do
    let v ← pyGet inp "file_path" (.str "?")
    .ok ("Edit -> " ++ pyStr v)
  else if name.isStr "Bash" then do
    let cmd ← pyGet inp "command" (.str "")
    let n ← pyLen cmd
    if n > 80 then
      match cmd with
      | .str s => .ok ("$ " ++ (⟨s.data.take 77⟩ : String) ++ "...")
      | _ => .error ()
    else .ok ("$ " ++ pyStr cmd)
  else if name.isStr "Glob" then do
    let v ← pyGet inp "pattern" (.str "?")
    .ok ("Glob -> " ++ pyStr v)
  else if name.isStr "Grep" then do
    let v ← pyGet inp "pattern" (.str "?")
    .ok ("Grep -> " ++ pyStr v)
  else if name.isStr "WebSearch" then do
    let v ← pyGet inp "query" (.str "?")
    .ok ("WebSearch: " ++ pyStr v)
  else if name.isStr "WebFetch" then do
    let v ← pyGet inp "url" (.str "?")
    let v' ← pySlice 60 v
    .ok ("WebFetch: " ++ pyStr v')
  else if name.isStr "Task" then do
    let dflt ← pyGet inp "prompt" (.str "?")
    let v ← pyGet inp "description" dflt
    let v' ← pySlice 60 v
    .ok ("Task: " ++ pyStr v')
  else if name.isStr "Skill" then do
    let v ← pyGet inp "skill" (.str "?")
    .ok ("Skill: " ++ pyStr v)
  else
    match name with
    | .str ns =>
      if strIn "mcp__" ns then do
        let parts := pySplit "__" ns
        let server ← if strIn "__" ns then getIdx parts 1 else .ok "?"
        let tname ← if countSub "__" ns ≥ 2 then getIdx parts 2 else .ok "?"
        .ok ("MCP " ++ server ++ "/" ++ tname)
      else .ok (ns ++ "()")
    | _ => .error ()

/-- JSON string escaping for `json.dumps` (quote, backslash and the common
control characters; other controls and non-ASCII escapes are not
modelled). -/
def jsonEscapeChar (c : Char) : List Char :=
  if c == '"' then ['\\', '"']
  else if c == '\\' then ['\\', '\\']
  else if c == '\n' then ['\\', 'n']
  else if c == '\t' then ['\\', 't']
  else if c == '\r' then ['\\', 'r']
  else [c]

/-- JSON string escaping on strings. -/
def jsonEscapeStr (s : String) : String := ⟨(s.data.map jsonEscapeChar).flatten⟩

/-- Indentation of `json.dumps(v, indent=2)` at a nesting level. -/
def indentOf (lvl : Nat) : String := ⟨List.replicate (2 * lvl) ' '⟩

mutual

/-- Python `json.dumps(v, indent=2)` at a nesting level. -/
def jsonDumps : Nat → JVal → String
  | _, .null => "null"
  | _, .bool b => if b then "true" else "false"
  | _, .num n => toString n
  | _, .str s => "\"" ++ jsonEscapeStr s ++ "\""
  | _, .arr [] => "[]"
  | lvl, .arr (x :: xs) =>
    "[\n" ++ jsonItems (lvl + 1) (x :: xs) ++ "\n" ++ indentOf lvl ++ "]"
  | _, .obj [] => "\x7b\x7d"
  | lvl, .obj (kv :: kvs) =>
    "\x7b\n" ++ jsonKVs (lvl + 1) (kv :: kvs) ++ "\n" ++ indentOf lvl ++ "\x7d"

/-- Indented, comma-separated dump of list items. -/
def jsonItems : Nat → List JVal → String
  | _, [] => ""
  | lvl, [x] => indentOf lvl ++ jsonDumps lvl x
  | lvl, x :: xs => indentOf lvl ++ jsonDumps lvl x ++ ",\n" ++ jsonItems lvl xs

/-- Indented, comma-separated dump of dict entries. -/
def jsonKVs : Nat → List (String × JVal) → String
  | _, [] => ""
  | lvl, [kv] =>
    indentOf lvl ++ "\"" ++ jsonEscapeStr kv.1 ++ "\": " ++ jsonDumps lvl kv.2
  | lvl, kv :: kvs =>
    indentOf lvl ++ "\"" ++ jsonEscapeStr kv.1 ++ "\": " ++ jsonDumps lvl kv.2 ++ ",\n" ++
      jsonKVs lvl kvs

end

/-- Python `json.dumps(v, indent=2) if isinstance(v, (dict, list)) else str(v)`
(src/export.py:242 and :424 and :509). -/
def dumpsOrStr (v : JVal) : String :=
  match v with
  | .arr _ => jsonDumps 0 v
  | .obj _ => jsonDumps 0 v
  | _ => pyStr v

/-- One `k: v` line of the Read/Write/Edit/Glob/Grep arm of
tool_full_detail (src/export.py:213-222). -/
def fullDetailField (kv : String × JVal) : String :=
  let k := kv.1
  let v := kv.2
  if k == "content" && (pyStr v).data.length > 500 then
    k ++ ": (" ++ toString (pyStr v).data.length ++ " chars)"
  else if k == "old_string" || k == "new_string" then
    let val := pyStr v
    if val.data.length > 300 then k ++ ":\n" ++ (⟨val.data.take 300⟩ : String) ++ "..."
    else k ++ ":\n" ++ val
  else k ++ ": " ++ pyStr v

/-- One `k: val` line of the mcp arm of tool_full_detail
(src/export.py:240-245): containers dumped as JSON, 300-character cut. -/
def mcpField300 (kv : String × JVal) : String :=
  let val := dumpsOrStr kv.2
  if val.data.length > 300 then kv.1 ++ ": " ++ (⟨val.data.take 300⟩ : String) ++ "..."
  else kv.1 ++ ": " ++ val

/-- One `k: val` line of the fallback arm of tool_full_detail
(src/export.py:246-251): `str(v)` with a 300-character cut. -/
def strField300 (kv : String × JVal) : String :=
  let val := pyStr kv.2
  if val.data.length > 300 then kv.1 ++ ": " ++ (⟨val.data.take 300⟩ : String) ++ "..."
  else kv.1 ++ ": " ++ val

/-- `tool_full_detail` (src/export.py:202-253): the expanded-view text,
`parts` joined by newlines. -/
def tool_full_detail (tool : ToolUse) : Except Unit String := do
  let name := tool.name
  let inp := tool.input
  let parts ←
    if name.isStr "Bash" then do
      let cmd ← pyGet inp "command" (.str "")
      let d ← pyGet inp "description" .null
      if pyTruthy d then do
        let dv ← pyGetItem inp "description"
        .ok ["Command:\n" ++ pyStr cmd, "Description: " ++ pyStr dv]
      else .ok ["Command:\n" ++ pyStr cmd]
    else if name.isStr "Read" || name.isStr "Write" || name.isStr "Edit" ||
        name.isStr "Glob" || name.isStr "Grep" then
      match inp with
      | .obj kvs => .ok (kvs.map fullDetailField)
      | _ => .error ()
    else if name.isStr "WebSearch" then do
      let q ← pyGet inp "query" (.str "")
      .ok ["Query: " ++ pyStr q]
    else if name.isStr "WebFetch" then do
      let u ← pyGet inp "url" (.str "")
      let p ← pyGet inp "prompt" (.str "")
      .ok ["URL: " ++ pyStr u, "Prompt: " ++ pyStr p]
    else if name.isStr "Task" then do
      let d ← pyGet inp "description" (.str "")
      let prompt ← pyGet inp "prompt" (.str "")
      let n ← pyLen prompt
      let promptLine ←
        if n > 500 then
          match prompt with
          | .str s => .ok ("Prompt: " ++ (⟨s.data.take 500⟩ : String) ++ "...")
          | _ => .error ()
        else .ok ("Prompt: " ++ pyStr prompt)
      let sat ← pyGet inp "subagent_type" .null
      if pyTruthy sat then do
        let sv ← pyGetItem inp "subagent_type"
        .ok ["Description: " ++ pyStr d, promptLine, "Agent: " ++ pyStr sv]
      else .ok ["Description: " ++ pyStr d, promptLine]
    else if name.isStr "Skill" then do
      let sk ← pyGet inp "skill" (.str "")
      let a ← pyGet inp "args" .null
      if pyTruthy a then do
        let av ← pyGetItem inp "args"
        .ok ["Skill: " ++ pyStr sk, "Args: " ++ pyStr av]
      else .ok ["Skill: " ++ pyStr sk]
    else
      match name with
      | .str ns =>
        if strIn "mcp__" ns then
          match inp with
          | .obj kvs => .ok (kvs.map mcpField300)
          | _ => .error ()
        else
          match inp with
          | .obj kvs => .ok (kvs.map strField300)
          | _ => .error ()
      | _ => .error ()
  .ok (String.intercalate "\n" (("Tool: " ++ pyStr name) :: parts))

/-- Requirement that an appended line is a string: `'\n'.join(lines)`
raises at write time when a non-string was appended, modelled as an error
at the append. -/
def asLine (v : JVal) : Except Unit String :=
  match v with
  | .str s => .ok s
  | _ => .error ()

/-- The 200-character cut of the Edit old/new fragments in the Markdown
renderer (src/export.py:486-492): `len` raises on non-sized values and the
cut itself needs a string; an untruncated value renders via `str`. -/
def mdCut200 (v : JVal) : Except Unit String := do
  let n ← pyLen v
  if n > 200 then
    match v with
    | .str s => .ok ((⟨s.data.take 200⟩ : String) ++ "...")
    | _ => .error ()
  else .ok (pyStr v)

/-- One `k: val` line of the generic arm of the Markdown renderer
(src/export.py:507-511): containers dumped as JSON, 500-character cut. -/
def mdGenericField (kv : String × JVal) : String :=
  let val := dumpsOrStr kv.2
  if val.data.length > 500 then kv.1 ++ ": " ++ (⟨val.data.take 500⟩ : String) ++ "..."
  else kv.1 ++ ": " ++ val

/-- Tool section of the Markdown renderer for one invocation: the loop body
at src/export.py:468-527, producing the lines appended for that tool. -/
def generate_markdown_tool (tool : ToolUse) : Except Unit (List String) := do
  let name := tool.name
  let inp := tool.input
  let body ←
    if name.isStr "Bash" then do
      let cmd ← pyGet inp "command" (.str "")
      let c ← asLine cmd
      .ok [c]
    else if name.isStr "Read" then do
      let fp ← pyGet inp "file_path" .null
      if pyTruthy fp then do
        let v ← pyGetItem inp "file_path"
        let s ← asLine v
        .ok [s]
      else
        match inp with
        | .obj kvs => .ok (kvs.map mdGenericField)
        | _ => .error ()
    else if name.isStr "Write" then do
      let fp ← pyGet inp "file_path" .null
      if pyTruthy fp then do
        let content ← pyGet inp "content" (.str "")
        let n ← pyLen content
        let contentLine ←
          if n > 500 then
            match content with
            | .str s => .ok ((⟨s.data.take 500⟩ : String) ++ "\n... (truncated)")
            | _ => .error ()
          else asLine content
        let fpv ← pyGetItem inp "file_path"
        .ok ["Write: " ++ pyStr fpv, contentLine]
      else
        match inp with
        | .obj kvs => .ok (kvs.map mdGenericField)
        | _ => .error ()
    else if name.isStr "Edit" then do
      let fp ← pyGet inp "file_path" .null
      if pyTruthy fp then do
        let old0 ← pyGet inp "old_string" (.str "")
        let new0 ← pyGet inp "new_string" (.str "")
        let old1 ← mdCut200 old0
        let new1 ← mdCut200 new0
        let fpv ← pyGetItem inp "file_path"
        .ok ["Edit: " ++ pyStr fpv, "- " ++ old1, "+ " ++ new1]
      else
        match inp with
        | .obj kvs => .ok (kvs.map mdGenericField)
        | _ => .error ()
    else if name.isStr "Grep" then do
      let p ← pyGet inp "pattern" .null
      if pyTruthy p then do
        let pv ← pyGetItem inp "pattern"
        let path ← pyGet inp "path" (.str ".")
        .ok ["grep \"" ++ pyStr pv ++ "\" " ++ pyStr path]
      else
        match inp with
        | .obj kvs => .ok (kvs.map mdGenericField)
        | _ => .error ()
    else if name.isStr "Glob" then do
      let p ← pyGet inp "pattern" .null
      if pyTruthy p then do
        let pv ← pyGetItem inp "pattern"
        let path ← pyGet inp "path" (.str ".")
        .ok ["glob \"" ++ pyStr pv ++ "\" " ++ pyStr path]
      else
        match inp with
        | .obj kvs => .ok (kvs.map mdGenericField)
        | _ => .error ()
    else if name.isStr "Skill" then do
      let sk ← pyGet inp "skill" (.str "")
      let a ← pyGet inp "args" .null
      if pyTruthy a then do
        let av ← pyGetItem inp "args"
        .ok ["/" ++ pyStr sk ++ " " ++ pyStr av]
      else .ok ["/" ++ pyStr sk]
    else if name.isStr "WebSearch" then do
      let q ← pyGet inp "query" (.str "")
      .ok ["search: " ++ pyStr q]
    else if name.isStr "WebFetch" then do
      let u ← pyGet inp "url" (.str "")
      .ok ["fetch " ++ pyStr u]
    else if name.isStr "Task" then do
      let d ← pyGet inp "description" (.str "")
      let sat ← pyGet inp "subagent_type" .null
      if pyTruthy sat then do
        let sv ← pyGetItem inp "subagent_type"
        .ok ["Task: " ++ pyStr d, "Agent: " ++ pyStr sv]
      else .ok ["Task: " ++ pyStr d]
    else
      match inp with
      | .obj kvs => .ok (kvs.map mdGenericField)
      | _ => .error ()
  let resultLines :=
    if tool.result != "" then
      let result :=
        if tool.result.data.length > 2000 then
          (⟨tool.result.data.take 2000⟩ : String) ++ "\n... (" ++
            toString tool.result.data.length ++ " chars)"
        else tool.result
      ["<details>", "<summary>Tool Result</summary>", "", "```", result, "```", "",
        "</details>", ""]
    else []
  .ok ((("### Tool: " ++ pyStr name) :: "" :: "```" :: body) ++ ["```", ""] ++ resultLines)

/-- One `k: val` line of the Read/Write/Edit/Glob/Grep arm of the raw-text
renderer (src/export.py:402-407): `str(v)` cut at 3000 characters with the
true length appended. -/
def rawField3000 (kv : String × JVal) : String :=
  let val := pyStr kv.2
  if val.data.length > 3000 then
    kv.1 ++ ": " ++ (⟨val.data.take 3000⟩ : String) ++ "... (" ++
      toString (pyStr kv.2).data.length ++ " chars)"
  else kv.1 ++ ": " ++ val

/-- One `k: val` line of the generic arm of the raw-text renderer
(src/export.py:422-427): containers dumped as JSON, cut at 3000 characters
with a bare ellipsis. -/
def rawGenericField3000 (kv : String × JVal) : String :=
  let val := dumpsOrStr kv.2
  if val.data.length > 3000 then kv.1 ++ ": " ++ (⟨val.data.take 3000⟩ : String) ++ "..."
  else kv.1 ++ ": " ++ val

/-- Tool section of the plain-text re-export for one invocation: the loop
body at src/export.py:394-434, producing the lines appended for that
tool. -/
def generate_raw_tool (tool : ToolUse) : Except Unit (List String) := do
  let name := tool.name
  let inp := tool.input
  let body ←
    if name.isStr "Bash" then do
      let cmd ← pyGet inp "command" (.str "")
      let d ← pyGet inp "description" .null
      if pyTruthy d then do
        let dv ← pyGetItem inp "description"
        .ok ["Command: " ++ pyStr cmd, "Description: " ++ pyStr dv]
      else .ok ["Command: " ++ pyStr cmd]
    else if name.isStr "Read" || name.isStr "Write" || name.isStr "Edit" ||
        name.isStr "Glob" || name.isStr "Grep" then
      match inp with
      | .obj kvs => .ok (kvs.map rawField3000)
      | _ => .error ()
    else if name.isStr "WebSearch" then do
      let q ← pyGet inp "query" (.str "")
      .ok ["Query: " ++ pyStr q]
    else if name.isStr "WebFetch" then do
      let u ← pyGet inp "url" (.str "")
      let p ← pyGet inp "prompt" (.str "")
      .ok ["URL: " ++ pyStr u, "Prompt: " ++ pyStr p]
    else if name.isStr "Task" then do
      let d ← pyGet inp "description" (.str "")
      let p ← pyGet inp "prompt" (.str "")
      let sat ← pyGet inp "subagent_type" .null
      if pyTruthy sat then do
        let sv ← pyGetItem inp "subagent_type"
        .ok ["Description: " ++ pyStr d, "Prompt: " ++ pyStr p, "Agent: " ++ pyStr sv]
      else .ok ["Description: " ++ pyStr d, "Prompt: " ++ pyStr p]
    else if name.isStr "Skill" then do
      let sk ← pyGet inp "skill" (.str "")
      let a ← pyGet inp "args" .null
      if pyTruthy a then do
        let av ← pyGetItem inp "args"
        .ok ["Skill: " ++ pyStr sk, "Args: " ++ pyStr av]
      else .ok ["Skill: " ++ pyStr sk]
    else
      match inp with
      | .obj kvs => .ok (kvs.map rawGenericField3000)
      | _ => .error ()
  let resultLines :=
    if tool.result != "" then
      let result :=
        if tool.result.data.length > 5000 then
          (⟨tool.result.data.take 5000⟩ : String) ++ "\n... (" ++
            toString tool.result.data.length ++ " chars total)"
        else tool.result
      ["\n[Output]", result]
    else []
  .ok ((("\n[Tool: " ++ pyStr name ++ "]") :: body) ++ resultLines)

/-- Result text as displayed by the HTML renderer (src/export.py:1018-1020):
a cut at 2000 characters with the true length appended. -/
def html_result_display (result_text : String) : String :=
  if result_text.data.length > 2000 then
    (⟨result_text.data.take 2000⟩ : String) ++ "\n... (" ++
      toString result_text.data.length ++ " chars total)"
  else result_text

/-- Python `str.lower()` (ASCII; the failure keywords are ASCII). -/
def pyLower (s : String) : String := ⟨s.data.map Char.toLower⟩

/-- The fixed failure keywords of the HTML renderer (src/export.py:1021). -/
def errKeywords : List String := ["error", "traceback", "exception", "failed"]

/-- The CSS class suffix of the HTML result div (src/export.py:1021): the
space-prefixed `error` class when the displayed text case-insensitively
contains a failure keyword, empty otherwise. -/
def html_err_class (display : String) : String :=
  if errKeywords.any (fun w => strIn w (pyLower display)) then " error" else ""

/-- The rendered result div of the HTML renderer (src/export.py:1016-1022). -/
def html_output_content_div (result_text : String) : String :=
  "        <div class=\"tool-output-content" ++ html_err_class (html_result_display result_text) ++
    "\">" ++ (⟨escapeHtmlL (html_result_display result_text).data⟩ : String) ++ "</div>"

/-- The full tool-output section of the HTML renderer
(src/export.py:1013-1025): emitted only when there is a result text or a
result image; the text div when there is text, then one img element per
result image. -/
def html_tool_output (result_text : String) (result_images : List String) : List String :=
  if result_text != "" || !result_images.isEmpty then
    ["      <div class=\"tool-output\">", "        <div class=\"tool-output-label\">Output</div>"] ++
      (if result_text != "" then [html_output_content_div result_text] else []) ++
      result_images.map (fun uri => "        <img class=\"tool-result-img\" src=\"" ++ uri ++ "\" />") ++
      ["      </div>"]
  else []

/-- The `content` value of a tool_result block. -/
def contentOf (b : JVal) : JVal :=
  match b with
  | .obj kvs => objGetD kvs "content" (.str "")
  | _ => .str ""

/-- Total view of a block's extracted payload (meaningful when the
correlator pass succeeded on it). -/
def payloadOf (b : JVal) : String × List String :=
  ((resultPayload (contentOf b)).toOption).getD ("", [])

/-- A block contributing to correlation id `k`: a dict of type tool_result
whose tool_use_id is truthy and equals `k` under the dictionary-key
equality. -/
def isContrib (k : JVal) (b : JVal) : Bool :=
  match b with
  | .obj kvs =>
    (objGet? kvs "type").isStr "tool_result" &&
      pyTruthy (objGetD kvs "tool_use_id" (.str "")) &&
      scalarEq (objGetD kvs "tool_use_id" (.str "")) k
  | _ => false

/-- The content blocks the correlator pass scans in one record: present
only for records of type "user" whose message content is a list. -/
def userBlocks (d : JVal) : List JVal :=
  match d with
  | .obj kvs =>
    match getk kvs "type" with
    | some ty =>
      if ty.isStr "user" then
        match objGetD kvs "message" (.obj []) with
        | .obj mkvs =>
          match objGetD mkvs "content" (.arr []) with
          | .arr l => l
          | _ => []
        | _ => []
      else []
    | none => []
  | _ => []

/-- All tool_result blocks of the log contributing to correlation id `k`,
in file order. -/
def resultBlocksFor (k : JVal) (rs : List JVal) : List JVal :=
  ((rs.map userBlocks).flatten).filter (isContrib k)

/-- Text sub-blocks' texts of a tool_result list content, in file order. -/
def textSubTexts (l : List JVal) : List String :=
  l.filterMap (fun rc =>
    match rc with
    | .obj kvs =>
      if (objGet? kvs "type").isStr "text" then
        match objGetD kvs "text" (.str "") with
        | .str t => some t
        | _ => none
      else none
    | _ => none)

/-- Newline-joined concatenation of a list of strings. -/
def joinNl : List String → String
  | [] => ""
  | [t] => t
  | t :: ts => t ++ "\n" ++ joinNl ts

/-- The result text the specification ascribes to one tool_result block: a
single string content is itself the text (trimmed); a list content yields
the trimmed newline-joined concatenation of its text sub-blocks in file
order; any other content resolves to the empty text. -/
def specResultText (b : JVal) : String :=
  match contentOf b with
  | .str s => pyStrip s
  | .arr l => pyStrip (joinNl (textSubTexts l))
  | _ => ""

/-- A log record of the usual shape, with arbitrary field values. -/
def mkRec (ty role ts content : JVal) : JVal :=
  .obj [("type", ty), ("timestamp", ts),
        ("message", .obj [("role", role), ("content", content)])]

/-- A text content block. -/
def textBlock (s : String) : JVal :=
  .obj [("type", .str "text"), ("text", .str s)]

/-- Well-formedness of a tool_result sub-block, sufficient for the
correlator pass not to raise on it: a text sub-block carries a string
text, an image sub-block a dict source. -/
def wfSub : JVal → Bool
  | .obj kvs =>
    if (objGet? kvs "type").isStr "text" then
      match objGetD kvs "text" (.str "") with
      | .str _ => true
      | _ => false
    else if (objGet? kvs "type").isStr "image" then
      match objGetD kvs "source" (.obj []) with
      | .obj _ => true
      | _ => false
    else true
  | _ => true

/-- Well-formedness of a content block, sufficient for both passes not to
raise on it. -/
def wfBlock : JVal → Bool
  | .obj kvs =>
    (if (objGet? kvs "type").isStr "tool_result" then
      (!(unhashable (objGetD kvs "tool_use_id" (.str "")))) &&
        (match objGetD kvs "content" (.str "") with
         | .arr l => l.all wfSub
         | _ => true)
     else true) &&
    (if (objGetD kvs "type" (.str "")).isStr "text" then
      (match objGetD kvs "text" (.str "") with
       | .str _ => true
       | _ => false)
     else true) &&
    (if (objGetD kvs "type" (.str "")).isStr "tool_use" then
      !(unhashable (objGetD kvs "id" (.str "")))
     else true) &&
    (if (objGetD kvs "type" (.str "")).isStr "image" then
      (match objGetD kvs "source" (.obj []) with
       | .obj _ => true
       | _ => false)
     else true)
  | _ => true

/-- Well-formedness of a record, sufficient for both passes not to raise
on it: a dict with a type key, a dict (or absent) message, and a string,
list or dict content whose list blocks are well-formed. -/
def wfRecord : JVal → Bool
  | .obj kvs =>
    (getk kvs "type").isSome &&
      (match objGetD kvs "message" (.obj []) with
       | .obj mkvs =>
         match objGetD mkvs "content" (.arr []) with
         | .arr l => l.all wfBlock
         | .str _ => true
         | .obj _ => true
         | _ => false
       | _ => false)
  | _ => false

/-- The trailing-newline shape of the text accumulated by
`resultPayloadList`: each text sub-block's characters followed by a
newline. -/
def trailJoin : List String → List Char
  | [] => []
  | t :: ts => t.data ++ '\n' :: trailJoin ts

@[simp] theorem exbind_ok {α β : Type} (a : α) (f : α → Except Unit β) :
    (Except.ok a >>= f : Except Unit β) = f a := rfl

@[simp] theorem exbind_err {α β : Type} (f : α → Except Unit β) :
    ((Except.error () : Except Unit α) >>= f) = .error () := rfl

theorem isStr_iff (v : JVal) (s : String) : v.isStr s = true ↔ v = .str s := by
  cases v <;> simp [JVal.isStr]

/-- C7: the Markdown-subset transducer escapes all literal content before
applying any subset rule (md_to_html is definitionally the post-escape
pipeline applied to the html-escaped input); on the input
`**bold** and `code`` exactly the span `bold` is wrapped in strong markup
and exactly `code` in inline-code markup; literal ampersand and less-than
characters elsewhere appear escaped. -/
theorem C7_escape_before_subset_rules :
    md_to_html "**bold** and `code`" =
      "<p><strong>bold</strong> and <code class=\"inline-code\">code</code></p>" ∧
    md_to_html "a & b < c" = "<p>a &amp; b &lt; c</p>" ∧
    ∀ t : String, md_to_html t = ⟨mdAfterEscape (escapeHtmlL t.data)⟩ :=
  ⟨rfl, rfl, fun _ => rfl⟩

/-- C5 counterexample: on the four pipe lines `|x|`, `|y|`, `|-|`, `|z|`
the separator is line 3, so the claim makes `|y|` (the row immediately
preceding it) the header row and `|x|`, `|z|` body rows; the code instead
renders `x` as the header cell and `y` as a body cell. -/
theorem C5_counterexample :
    strIn "<th>x</th>" (md_to_html "|x|\n|y|\n|-|\n|z|") = true ∧
    strIn "<td>y</td>" (md_to_html "|x|\n|y|\n|-|\n|z|") = true ∧
    strIn "<th>y</th>" (md_to_html "|x|\n|y|\n|-|\n|z|") = false :=
  ⟨rfl, rfl, rfl⟩

/-- C5 amended: among consecutive pipe-delimited table lines, a dash/colon
separator row is discarded without affecting the table state; the pipe row
met while no table is open (the first non-separator row of the group)
becomes the header row whether or not a separator follows; every pipe row
met while a table is open becomes a body row.  In particular three
consecutive pipe lines whose second is a separator yield the header row
from line 1 and the body row from line 3. -/
theorem C5_table_first_row_is_header :
    (∀ (l : List Char) (ls : List (List Char)),
      isPipeLine (stripChars l) = true → isSepCells (pipeCells (stripChars l)) = true →
      tableLoop false (l :: ls) = tableLoop false ls ∧
      tableLoop true (l :: ls) = tableLoop true ls) ∧
    (∀ (l : List Char) (ls : List (List Char)),
      isPipeLine (stripChars l) = true → isSepCells (pipeCells (stripChars l)) = false →
      tableLoop false (l :: ls) =
        "<table class=\"md-table\">".data :: thRow (pipeCells (stripChars l)) :: tableLoop true ls ∧
      tableLoop true (l :: ls) = tdRow (pipeCells (stripChars l)) :: tableLoop true ls) ∧
    md_to_html "|a|\n|-|\n|b|" =
      "<p><table class=\"md-table\">\n<tr><th>a</th></tr>\n<tr><td>b</td></tr>\n</table></p>" := by
  refine ⟨fun l ls h1 h2 => ?_, fun l ls h1 h2 => ?_, rfl⟩
  · constructor <;> simp [tableLoop, h1, h2]
  · constructor <;> simp [tableLoop, h1, h2]

theorem C5_table_first_row_is_header_witness :
    tableLoop false ["|-|".data, "|a|".data] = tableLoop false ["|a|".data] ∧
    tableLoop false ["|a|".data] =
      "<table class=\"md-table\">".data ::
        thRow (pipeCells (stripChars "|a|".data)) :: tableLoop true [] :=
  ⟨(C5_table_first_row_is_header.1 "|-|".data ["|a|".data] rfl rfl).1,
   (C5_table_first_row_is_header.2.1 "|a|".data [] rfl rfl).1⟩

/-- C3: a built user or assistant turn is kept by buildRecord exactly when
the visibility rule holds; the rule spelled out is: a user turn needs a
text or an image, an assistant turn a text, a tool invocation or an image.
In particular an assistant record with one tool_use block, no text and no
images yields a kept turn. -/
theorem C3_visibility_filter :
    (∀ (maps : ResultMaps) (d : JVal) (t : Turn),
      buildTurnOfRecord maps d = .ok (some t) →
      (buildRecord maps d = .ok (some t) ↔ visibleTurn t = true)) ∧
    (∀ t : Turn, visibleTurn t = true ↔
      ((t.role = .str "user" ∧ (t.texts ≠ [] ∨ t.images ≠ [])) ∨
       (t.role = .str "assistant" ∧ (t.texts ≠ [] ∨ t.tool_uses ≠ [] ∨ t.images ≠ [])))) ∧
    parse_messages [mkRec (.str "assistant") (.str "assistant") (.str "")
        (.arr [.obj [("type", .str "tool_use"), ("id", .str "t9"), ("name", .str "Bash"),
          ("input", .obj [])]])] =
      .ok [⟨.str "assistant", .str "", [], [⟨.str "Bash", .obj [], .str "t9", "", []⟩], []⟩] := by
  refine ⟨fun maps d t h => ?_, fun t => ?_, rfl⟩
  · by_cases hv : visibleTurn t
    · simp [buildRecord, h, hv]
    · simp [buildRecord, h, hv]
  · rcases h : t.role with _ | b | n | s | xs | kvs <;>
      simp [visibleTurn, JVal.isStr, h]
    by_cases h1 : s = "user"
    · subst h1
      simp [List.isEmpty_iff]
    · by_cases h2 : s = "assistant"
      · subst h2
        simp [List.isEmpty_iff, or_assoc]
      · simp [h1, h2]

theorem C3_visibility_filter_witness :
    buildRecord ⟨[], []⟩ (mkRec (.str "assistant") (.str "assistant") (.str "")
        (.arr [.obj [("type", .str "tool_use"), ("id", .str "t9"), ("name", .str "Bash"),
          ("input", .obj [])]])) =
        .ok (some ⟨.str "assistant", .str "", [], [⟨.str "Bash", .obj [], .str "t9", "", []⟩], []⟩) ↔
      visibleTurn ⟨.str "assistant", .str "", [], [⟨.str "Bash", .obj [], .str "t9", "", []⟩], []⟩ = true :=
  C3_visibility_filter.1 _ _ _ rfl

/-- C4: a user-turn text block containing the system-annotation marker has
every annotated span (markers included) stripped, and the stripped text is
appended only when non-empty after trimming; the regex removal deletes
each marked span; a user turn whose only text is fully enclosed in the
markers yields no output turn at all. -/
theorem C4_annotation_stripping :
    (∀ (maps : ResultMaps) (turn : Turn) (text : String),
      strIn "<system-reminder>" text = true → turn.role = .str "user" →
      buildBlock maps turn (textBlock text) =
        .ok { turn with texts := turn.texts ++
          (if pyStrip (removeSystemReminders text) != "" then
            [pyStrip (removeSystemReminders text)] else []) }) ∧
    removeSystemReminders
      "a<system-reminder>x</system-reminder>b<system-reminder>y</system-reminder>c" = "abc" ∧
    parse_messages [mkRec (.str "user") (.str "user") (.str "")
        (.arr [textBlock "<system-reminder>ignore this</system-reminder>"])] = .ok [] := by
  refine ⟨fun maps turn text h hrole => ?_, rfl, rfl⟩
  obtain ⟨role, tstamp, texts, tools, imgs⟩ := turn
  simp only at hrole
  subst hrole
  by_cases hc : pyStrip (removeSystemReminders text) = ""
  · simp [buildBlock, textBlock, objGetD, objGet?, getk, pyInJ, JVal.isStr, hc, h]
  · simp [buildBlock, textBlock, objGetD, objGet?, getk, pyInJ, JVal.isStr, hc, h]

theorem C4_annotation_stripping_witness :
    buildBlock ⟨[], []⟩ (emptyTurn (.str "user") (.str ""))
        (textBlock "<system-reminder>x</system-reminder>hi") =
      .ok { emptyTurn (.str "user") (.str "") with
        texts := (emptyTurn (.str "user") (.str "")).texts ++
          (if pyStrip (removeSystemReminders "<system-reminder>x</system-reminder>hi") != "" then
            [pyStrip (removeSystemReminders "<system-reminder>x</system-reminder>hi")] else []) } :=
  C4_annotation_stripping.1 _ _ _ rfl rfl

/-- C9: a record whose message content is a single string is treated by
the turn pass exactly as if the content were one text block (and such a
record can yield a visible turn), while the correlator pass leaves the
maps untouched on it. -/
theorem C9_string_content :
    (∀ (maps : ResultMaps) (ty role ts : JVal) (s : String),
      buildRecord maps (mkRec ty role ts (.str s)) =
        buildRecord maps (mkRec ty role ts (.arr [textBlock s]))) ∧
    (∀ (maps : ResultMaps) (ty role ts : JVal) (s : String),
      collectRecord maps (mkRec ty role ts (.str s)) = .ok maps) ∧
    parse_messages [mkRec (.str "user") (.str "user") (.str "") (.str "hi")] =
      .ok [⟨.str "user", .str "", ["hi"], [], []⟩] := by
  refine ⟨fun maps ty role ts s => rfl, fun maps ty role ts s => ?_, rfl⟩
  by_cases h : ty.isStr "user" <;>
    simp [collectRecord, mkRec, pyGetItem, getk, pyGet, objGetD, h]

/-- C10 counterexample: the record `{}` comes from a JSON-parseable log
line but lacks a `type` key; both passes raise on it (`d["type"]`), so the
export aborts instead of skipping the record. -/
theorem C10_counterexample :
    parse_messages [JVal.obj []] = .error () ∧
    collectToolResults ⟨[], []⟩ [JVal.obj []] = .error () ∧
    buildTurns ⟨[], []⟩ [JVal.obj []] = .error () :=
  ⟨rfl, rfl, rfl⟩

theorem hasSub_append_right (n l : List Char) (xs : List Char) (h : hasSub n l = true) :
    hasSub n (xs ++ l) = true := by
  induction xs with
  | nil => simpa using h
  | cons c cs ih =>
    simp only [List.cons_append, hasSub, Bool.or_eq_true]
    exact Or.inr ih

theorem hasSub_replicate_cons (h : Char) (t : List Char) (c : Char) (m : Nat) (l : List Char)
    (hne : (h == c) = false) :
    hasSub (h :: t) (List.replicate m c ++ l) = hasSub (h :: t) l := by
  induction m with
  | zero => simp
  | succ m ih =>
    rw [List.replicate_succ, List.cons_append]
    simp only [hasSub, List.isPrefixOf, hne, Bool.false_and, Bool.false_or]
    exact ih

theorem pyLower_data (s : String) : (pyLower s).data = s.data.map Char.toLower := rfl

theorem strIn_eq (x y : String) : strIn x y = hasSub x.data y.data := rfl

theorem html_result_display_long (l tail : List Char) (hl : l.length = 2000)
    (h5 : tail.length = 5) :
    (html_result_display ⟨l ++ tail⟩).data = l ++ "\n... (2005 chars total)".data := by
  have hlen : (⟨l ++ tail⟩ : String).data.length = 2005 := by
    show (l ++ tail).length = 2005
    rw [List.length_append, hl, h5]
  rw [html_result_display, if_pos (by rw [hlen]; decide)]
  rw [hlen]
  show (((l ++ tail).take 2000 ++ "\n... (".data) ++ (toString 2005).data) ++
      " chars total)".data = _
  rw [← hl, List.take_left]
  rw [List.append_assoc, List.append_assoc]
  exact congrArg (l ++ ·) (by decide)

/-- C8 counterexample: a result text of 2000 `a` characters followed by
`error` case-insensitively contains the keyword `error`, yet the rendered
result div carries no error class, because the classification is computed
on the 2000-character truncated display text, which has lost the
keyword. -/
theorem C8_counterexample :
    strIn "error" (pyLower ⟨List.replicate 2000 'a' ++ "error".data⟩) = true ∧
    html_err_class (html_result_display ⟨List.replicate 2000 'a' ++ "error".data⟩) = "" := by
  constructor
  · rw [strIn_eq, pyLower_data]
    show hasSub "error".data
      ((List.replicate 2000 'a' ++ "error".data).map Char.toLower) = true
    rw [List.map_append, List.map_replicate]
    exact hasSub_append_right _ _ _ (by decide)
  · have hlow : (pyLower (html_result_display ⟨List.replicate 2000 'a' ++ "error".data⟩)).data =
        List.replicate 2000 'a' ++ "\n... (2005 chars total)".data.map Char.toLower := by
      rw [pyLower_data]
      rw [html_result_display_long (List.replicate 2000 'a') "error".data
        (by rw [List.length_replicate]) rfl]
      rw [List.map_append, List.map_replicate]
      rfl
    have hmiss : ∀ w ∈ errKeywords, hasSub w.data
        (List.replicate 2000 'a' ++ "\n... (2005 chars total)".data.map Char.toLower) = false := by
      intro w hw
      fin_cases hw <;>
        · rw [hasSub_replicate_cons _ _ _ _ _ (by decide)]
          decide
    rw [html_err_class, if_neg]
    intro hany
    rw [List.any_eq_true] at hany
    obtain ⟨w, hw, hsub⟩ := hany
    have hfalse : strIn w
        (pyLower (html_result_display ⟨List.replicate 2000 'a' ++ "error".data⟩)) = false := by
      rw [strIn_eq, hlow]
      exact hmiss w hw
    rw [hfalse] at hsub
    exact Bool.false_ne_true hsub

/-- C8 amended: the rendered result div receives the error class exactly
when the displayed (truncated) result text case-insensitively contains one
of the fixed failure keywords; the classification affects only the class
attribute of the div — the emitted content is the escaped display text
either way. -/
theorem C8_keyword_class_on_displayed_text :
    (∀ r : String, html_output_content_div r =
      "        <div class=\"tool-output-content" ++ html_err_class (html_result_display r) ++
        "\">" ++ (⟨escapeHtmlL (html_result_display r).data⟩ : String) ++ "</div>") ∧
    (∀ r : String, html_err_class (html_result_display r) = " error" ∨
      html_err_class (html_result_display r) = "") ∧
    (∀ r : String, html_err_class (html_result_display r) = " error" ↔
      (errKeywords.any (fun w => strIn w (pyLower (html_result_display r)))) = true) := by
  refine ⟨fun r => rfl, fun r => ?_, fun r => ?_⟩
  · by_cases h : (errKeywords.any (fun w => strIn w (pyLower (html_result_display r)))) = true
    · exact Or.inl (by rw [html_err_class, if_pos h])
    · exact Or.inr (by rw [html_err_class, if_neg h])
  · by_cases h : (errKeywords.any (fun w => strIn w (pyLower (html_result_display r)))) = true
    · rw [html_err_class, if_pos h]
      exact iff_of_true rfl h
    · rw [html_err_class, if_neg h]
      exact iff_of_false (by decide) h

/-- C6 counterexample: a 100-character Bash command in the one-line
summary is cut to 77 characters plus a bare `...`; the true length (100)
appears nowhere in the output, so this truncation does not append a count
of the true length. -/
theorem C6_counterexample :
    tool_summary ⟨.str "Bash", .obj [("command", .str ⟨List.replicate 100 'x'⟩)],
        .str "", "", []⟩ =
      .ok ("$ " ++ (⟨List.replicate 77 'x'⟩ : String) ++ "...") ∧
    strIn "100" ("$ " ++ (⟨List.replicate 77 'x'⟩ : String) ++ "...") = false := by
  exact ⟨rfl, by decide⟩

/-- C6 amended: the formatters bound long fields but only some append the
true length.  The one-line summary cuts a Bash command beyond 80
characters to 77 plus a bare ellipsis, and always cuts the WebFetch URL at
60 characters with no marker at all; the full detail cuts old/new_string
fragments beyond 300 characters with a bare ellipsis but reports the true
character count for content fields beyond 500; the Markdown renderer's
result truncation at 2000 and the plain-text renderer's at 5000 do append
the true character count. -/
theorem C6_truncation_markers :
    (∀ (cmd : String) (i : JVal) (res : String) (imgs : List String),
      cmd.data.length > 80 →
      tool_summary ⟨.str "Bash", .obj [("command", .str cmd)], i, res, imgs⟩ =
        .ok ("$ " ++ (⟨cmd.data.take 77⟩ : String) ++ "...")) ∧
    (∀ (url : String) (i : JVal) (res : String) (imgs : List String),
      tool_summary ⟨.str "WebFetch", .obj [("url", .str url)], i, res, imgs⟩ =
        .ok ("WebFetch: " ++ (⟨url.data.take 60⟩ : String))) ∧
    (∀ (fp old : String) (i : JVal) (res : String) (imgs : List String),
      old.data.length > 300 →
      tool_full_detail ⟨.str "Edit",
          .obj [("file_path", .str fp), ("old_string", .str old)], i, res, imgs⟩ =
        .ok (String.intercalate "\n" ["Tool: Edit", "file_path: " ++ fp,
          "old_string:\n" ++ (⟨old.data.take 300⟩ : String) ++ "..."])) ∧
    (∀ (content : String) (i : JVal) (res : String) (imgs : List String),
      content.data.length > 500 →
      tool_full_detail ⟨.str "Write", .obj [("content", .str content)], i, res, imgs⟩ =
        .ok (String.intercalate "\n" ["Tool: Write",
          "content: (" ++ toString content.data.length ++ " chars)"])) ∧
    (∀ (c res : String) (i : JVal) (imgs : List String),
      res.data.length > 2000 →
      generate_markdown_tool ⟨.str "Bash", .obj [("command", .str c)], i, res, imgs⟩ =
        .ok (["### Tool: Bash", "", "```", c, "```", "", "<details>",
          "<summary>Tool Result</summary>", "", "```",
          (⟨res.data.take 2000⟩ : String) ++ "\n... (" ++ toString res.data.length ++ " chars)",
          "```", "", "</details>", ""])) ∧
    (∀ (c res : String) (i : JVal) (imgs : List String),
      res.data.length > 5000 →
      generate_raw_tool ⟨.str "Bash", .obj [("command", .str c)], i, res, imgs⟩ =
        .ok (["\n[Tool: Bash]", "Command: " ++ c, "\n[Output]",
          (⟨res.data.take 5000⟩ : String) ++ "\n... (" ++ toString res.data.length ++
            " chars total)"])) := by
  refine ⟨fun cmd i res imgs h => ?_, fun url i res imgs => rfl,
    fun fp old i res imgs h => ?_, fun content i res imgs h => ?_,
    fun c res i imgs h => ?_, fun c res i imgs h => ?_⟩
  · have h' : cmd.length > 80 := h
    simp [tool_summary, JVal.isStr, pyGet, getk, pyLen, h, h']
  · have h' : old.length > 300 := h
    simp [tool_full_detail, JVal.isStr, fullDetailField, pyStr, h, h']
  · have h' : content.length > 500 := h
    simp [tool_full_detail, JVal.isStr, fullDetailField, pyStr, h, h']
  · have hne : (res != "") = true := by
      rw [bne_iff_ne]
      intro he
      rw [he] at h
      exact absurd h (by decide)
    have h' : res.length > 2000 := h
    simp [generate_markdown_tool, JVal.isStr, pyGet, getk, asLine, pyStr, hne, h, h']
  · have hne : (res != "") = true := by
      rw [bne_iff_ne]
      intro he
      rw [he] at h
      exact absurd h (by decide)
    have h' : res.length > 5000 := h
    simp [generate_raw_tool, JVal.isStr, pyGet, getk, pyStr, pyTruthy, hne, h, h']

theorem C6_truncation_markers_witness :
    tool_summary ⟨.str "Bash", .obj [("command", .str ⟨List.replicate 90 'c'⟩)],
        .null, "", []⟩ =
      .ok ("$ " ++ (⟨(String.mk (List.replicate 90 'c')).data.take 77⟩ : String) ++ "...") ∧
    tool_full_detail ⟨.str "Edit", .obj [("file_path", .str "f"),
        ("old_string", .str ⟨List.replicate 301 'o'⟩)], .null, "", []⟩ =
      .ok (String.intercalate "\n" ["Tool: Edit", "file_path: " ++ "f",
        "old_string:\n" ++ (⟨(String.mk (List.replicate 301 'o')).data.take 300⟩ : String) ++
          "..."]) ∧
    tool_full_detail ⟨.str "Write", .obj [("content", .str ⟨List.replicate 501 'c'⟩)],
        .null, "", []⟩ =
      .ok (String.intercalate "\n" ["Tool: Write",
        "content: (" ++ toString (String.mk (List.replicate 501 'c')).data.length ++
          " chars)"]) ∧
    generate_markdown_tool ⟨.str "Bash", .obj [("command", .str "ls")], .null,
        ⟨List.replicate 2001 'r'⟩, []⟩ =
      .ok (["### Tool: Bash", "", "```", "ls", "```", "", "<details>",
        "<summary>Tool Result</summary>", "", "```",
        (⟨(String.mk (List.replicate 2001 'r')).data.take 2000⟩ : String) ++ "\n... (" ++
          toString (String.mk (List.replicate 2001 'r')).data.length ++ " chars)",
        "```", "", "</details>", ""]) ∧
    generate_raw_tool ⟨.str "Bash", .obj [("command", .str "ls")], .null,
        ⟨List.replicate 5001 'r'⟩, []⟩ =
      .ok (["\n[Tool: Bash]", "Command: " ++ "ls", "\n[Output]",
        (⟨(String.mk (List.replicate 5001 'r')).data.take 5000⟩ : String) ++ "\n... (" ++
          toString (String.mk (List.replicate 5001 'r')).data.length ++ " chars total)"]) :=
  ⟨C6_truncation_markers.1 ⟨List.replicate 90 'c'⟩ .null "" []
      (by show (List.replicate 90 'c').length > 80; rw [List.length_replicate]; decide),
   C6_truncation_markers.2.2.1 "f" ⟨List.replicate 301 'o'⟩ .null "" []
      (by show (List.replicate 301 'o').length > 300; rw [List.length_replicate]; decide),
   C6_truncation_markers.2.2.2.1 ⟨List.replicate 501 'c'⟩ .null "" []
      (by show (List.replicate 501 'c').length > 500; rw [List.length_replicate]; decide),
   C6_truncation_markers.2.2.2.2.1 "ls" ⟨List.replicate 2001 'r'⟩ .null []
      (by show (List.replicate 2001 'r').length > 2000; rw [List.length_replicate]; decide),
   C6_truncation_markers.2.2.2.2.2 "ls" ⟨List.replicate 5001 'r'⟩ .null []
      (by show (List.replicate 5001 'r').length > 5000; rw [List.length_replicate]; decide)⟩

theorem wf_resultPayloadList (l : List JVal) :
    l.all wfSub = true → ∀ txt imgs, ∃ p, resultPayloadList l txt imgs = .ok p := by
  induction l with
  | nil => exact fun _ txt imgs => ⟨(txt, imgs), rfl⟩
  | cons rc rcs ih =>
    intro hall txt imgs
    rw [List.all_cons, Bool.and_eq_true] at hall
    obtain ⟨hrc, hrcs⟩ := hall
    cases rc with
    | obj kvs =>
      simp only [wfSub] at hrc
      by_cases ht : (objGet? kvs "type").isStr "text"
      · rw [if_pos ht] at hrc
        rcases hx : objGetD kvs "text" (.str "") with _ | b | n | t | xs | okvs <;>
          rw [hx] at hrc <;> try simp at hrc
        simp only [resultPayloadList, ht, if_true, hx]
        exact ih hrcs _ _
      · by_cases hi : (objGet? kvs "type").isStr "image"
        · rw [if_neg ht, if_pos hi] at hrc
          rcases hx : objGetD kvs "source" (.obj []) with _ | b | n | t | xs | skvs <;>
            rw [hx] at hrc <;> try simp at hrc
          by_cases hb : (objGet? skvs "type").isStr "base64" <;>
            · simp only [resultPayloadList, ht, hi, hx, hb, if_true, if_false,
                Bool.false_eq_true]
              exact ih hrcs _ _
        · simp only [resultPayloadList, ht, hi, if_false, Bool.false_eq_true]
          exact ih hrcs _ _
    | null => simp only [resultPayloadList]; exact ih hrcs _ _
    | bool b => simp only [resultPayloadList]; exact ih hrcs _ _
    | num n => simp only [resultPayloadList]; exact ih hrcs _ _
    | str s => simp only [resultPayloadList]; exact ih hrcs _ _
    | arr xs => simp only [resultPayloadList]; exact ih hrcs _ _

theorem wf_resultPayload (c : JVal)
    (h : (match c with | .arr l => l.all wfSub | _ => true) = true) :
    ∃ p, resultPayload c = .ok p := by
  cases c with
  | arr l => exact wf_resultPayloadList l h "" []
  | str s => exact ⟨(s, []), rfl⟩
  | null => exact ⟨("", []), rfl⟩
  | bool b => exact ⟨("", []), rfl⟩
  | num n => exact ⟨("", []), rfl⟩
  | obj kvs => exact ⟨("", []), rfl⟩

theorem wf_collectBlock (b : JVal) (hb : wfBlock b = true) (maps : ResultMaps) :
    ∃ m', collectBlock maps b = .ok m' := by
  cases b with
  | obj kvs =>
    simp only [wfBlock, Bool.and_eq_true] at hb
    obtain ⟨⟨⟨h1, _⟩, _⟩, _⟩ := hb
    by_cases ht : (objGet? kvs "type").isStr "tool_result"
    · rw [if_pos ht, Bool.and_eq_true] at h1
      obtain ⟨hh, hc⟩ := h1
      obtain ⟨p, hp⟩ := wf_resultPayload (objGetD kvs "content" (.str "")) hc
      rw [Bool.not_eq_true'] at hh
      obtain ⟨txt, imgs⟩ := p
      by_cases htr : pyTruthy (objGetD kvs "tool_use_id" (.str ""))
      · refine ⟨⟨kvSet maps.texts (objGetD kvs "tool_use_id" (.str "")) (pyStrip txt),
          if imgs.isEmpty then maps.images
          else kvSet maps.images (objGetD kvs "tool_use_id" (.str "")) imgs⟩, ?_⟩
        simp [collectBlock, ht, hp, htr, hh]
      · refine ⟨maps, ?_⟩
        simp [collectBlock, ht, hp, htr]
    · exact ⟨maps, by simp [collectBlock, ht]⟩
  | null => exact ⟨maps, rfl⟩
  | bool x => exact ⟨maps, rfl⟩
  | num x => exact ⟨maps, rfl⟩
  | str x => exact ⟨maps, rfl⟩
  | arr x => exact ⟨maps, rfl⟩

theorem wf_collectBlocks (bs : List JVal) :
    (∀ b ∈ bs, wfBlock b = true) → ∀ maps, ∃ m', collectBlocks maps bs = .ok m' := by
  induction bs with
  | nil => exact fun _ maps => ⟨maps, rfl⟩
  | cons b bs ih =>
    intro hall maps
    obtain ⟨m1, hm1⟩ := wf_collectBlock b (hall b (List.mem_cons_self b bs)) maps
    obtain ⟨m2, hm2⟩ := ih (fun x hx => hall x (List.mem_cons_of_mem b hx)) m1
    exact ⟨m2, by simp [collectBlocks, hm1, hm2]⟩

theorem keyBlocks_wf (kvs : List (String × JVal)) :
    ∀ b ∈ kvs.map (fun kv => JVal.str kv.1), wfBlock b = true := by
  intro b hb
  rcases List.mem_map.mp hb with ⟨kv, _, rfl⟩
  rfl

theorem wf_collectRecord (d : JVal) (hd : wfRecord d = true) (maps : ResultMaps) :
    ∃ m', collectRecord maps d = .ok m' := by
  cases d with
  | obj kvs =>
    simp only [wfRecord, objGetD, Bool.and_eq_true] at hd
    obtain ⟨hty, hmsg⟩ := hd
    rw [Option.isSome_iff_exists] at hty
    obtain ⟨ty, hty⟩ := hty
    by_cases hu : ty.isStr "user"
    · rcases hm : (getk kvs "message").getD (JVal.obj []) with _ | b | n | t | xs | mkvs <;>
        rw [hm] at hmsg <;> try simp at hmsg
      rcases hc : (getk mkvs "content").getD (JVal.arr []) with _ | b | n | t | xs | ckvs <;>
        rw [hc] at hmsg <;> try simp at hmsg
      · exact ⟨maps, by simp [collectRecord, pyGetItem, hty, hu, pyGet, hm, hc]⟩
      · obtain ⟨m', hm'⟩ := wf_collectBlocks xs (fun x hx => hmsg x hx) maps
        exact ⟨m', by simp [collectRecord, pyGetItem, hty, hu, pyGet, hm, hc, pyIter, hm']⟩
      · obtain ⟨m', hm'⟩ := wf_collectBlocks _ (keyBlocks_wf ckvs) maps
        exact ⟨m', by simp [collectRecord, pyGetItem, hty, hu, pyGet, hm, hc, pyIter, hm']⟩
    · have hu' : ty.isStr "user" = false := by
        cases h : ty.isStr "user"
        · rfl
        · exact absurd h hu
      exact ⟨maps, by simp [collectRecord, pyGetItem, hty, hu']⟩
  | null => simp [wfRecord] at hd
  | bool x => simp [wfRecord] at hd
  | num x => simp [wfRecord] at hd
  | str x => simp [wfRecord] at hd
  | arr x => simp [wfRecord] at hd

theorem wf_collectToolResults (rs : List JVal) :
    (∀ d ∈ rs, wfRecord d = true) → ∀ maps, ∃ m', collectToolResults maps rs = .ok m' := by
  induction rs with
  | nil => exact fun _ maps => ⟨maps, rfl⟩
  | cons d ds ih =>
    intro hall maps
    obtain ⟨m1, hm1⟩ := wf_collectRecord d (hall d (List.mem_cons_self d ds)) maps
    obtain ⟨m2, hm2⟩ := ih (fun x hx => hall x (List.mem_cons_of_mem d hx)) m1
    exact ⟨m2, by simp [collectToolResults, hm1, hm2]⟩

theorem exists_ok_of_ne_error {α : Type} (e : Except Unit α) (h : ¬e = .error ()) :
    ∃ x, e = .ok x := by
  cases e with
  | error u => cases u; exact absurd rfl h
  | ok v => exact ⟨v, rfl⟩

theorem wf_buildBlock (b : JVal) (hb : wfBlock b = true) (maps : ResultMaps) (turn : Turn) :
    ∃ t', buildBlock maps turn b = .ok t' := by
  apply exists_ok_of_ne_error
  cases b with
  | obj kvs =>
    simp only [wfBlock, Bool.and_eq_true] at hb
    obtain ⟨⟨⟨_, h2⟩, h3⟩, h4⟩ := hb
    by_cases ht : (objGetD kvs "type" (.str "")).isStr "text"
    · rw [if_pos ht] at h2
      rcases hx : objGetD kvs "text" (.str "") with _ | b | n | t | xs | okvs <;>
        rw [hx] at h2 <;> try simp at h2
      simp only [buildBlock, ht, if_true, hx, pyInJ, exbind_ok]
      split <;> split <;> simp
    · by_cases hu : (objGetD kvs "type" (.str "")).isStr "tool_use"
      · rw [if_pos hu] at h3
        rw [Bool.not_eq_true'] at h3
        simp [buildBlock, ht, hu, h3]
      · by_cases hi : (objGetD kvs "type" (.str "")).isStr "image"
        · rw [if_pos hi] at h4
          rcases hx : objGetD kvs "source" (.obj []) with _ | b | n | t | xs | skvs <;>
            rw [hx] at h4 <;> try simp at h4
          simp only [buildBlock, ht, hu, hi, if_true, if_false, hx, Bool.false_eq_true]
          split <;> simp
        · simp [buildBlock, ht, hu, hi]
  | null => simp [buildBlock]
  | bool x => simp [buildBlock]
  | num x => simp [buildBlock]
  | str x => simp [buildBlock]
  | arr x => simp [buildBlock]

theorem wf_buildBlocks (bs : List JVal) :
    (∀ b ∈ bs, wfBlock b = true) → ∀ maps turn, ∃ t', buildBlocks maps turn bs = .ok t' := by
  induction bs with
  | nil => exact fun _ maps turn => ⟨turn, rfl⟩
  | cons b bs ih =>
    intro hall maps turn
    obtain ⟨t1, ht1⟩ := wf_buildBlock b (hall b (List.mem_cons_self b bs)) maps turn
    obtain ⟨t2, ht2⟩ := ih (fun x hx => hall x (List.mem_cons_of_mem b hx)) maps t1
    exact ⟨t2, by simp [buildBlocks, ht1, ht2]⟩

theorem textBlock_wf (s : String) : wfBlock (textBlock s) = true := rfl

theorem wf_buildRecord (d : JVal) (hd : wfRecord d = true) (maps : ResultMaps) :
    ∃ o, buildRecord maps d = .ok o := by
  cases d with
  | obj kvs =>
    simp only [wfRecord, objGetD, Bool.and_eq_true] at hd
    obtain ⟨hty, hmsg⟩ := hd
    rw [Option.isSome_iff_exists] at hty
    obtain ⟨ty, hty⟩ := hty
    by_cases hua : (!(ty.isStr "user") && !(ty.isStr "assistant")) = true
    · rw [Bool.and_eq_true, Bool.not_eq_true', Bool.not_eq_true'] at hua
      obtain ⟨hu, ha⟩ := hua
      exact ⟨none, by simp [buildRecord, buildTurnOfRecord, pyGetItem, hty, hu, ha]⟩
    · rcases hm : (getk kvs "message").getD (JVal.obj []) with _ | b | n | t | xs | mkvs <;>
        rw [hm] at hmsg <;> try simp at hmsg
      rcases hc : (getk mkvs "content").getD (JVal.arr []) with _ | b | n | t | xs | ckvs <;>
        rw [hc] at hmsg <;> try simp at hmsg
      · -- string content wrapped into one text block
        obtain ⟨t', ht'⟩ := wf_buildBlocks [textBlock t] (by
          intro x hx
          rw [List.mem_singleton] at hx
          subst hx
          exact textBlock_wf t) maps
          (emptyTurn ((getk mkvs "role").getD ty) ((getk kvs "timestamp").getD (.str "")))
        refine exists_ok_of_ne_error _ ?_
        simp only [buildRecord, buildTurnOfRecord, pyGetItem, hty, exbind_ok,
          pyGet, hm, hc, pyIter, textBlock] at ht' ⊢
        rw [if_neg hua, ht']
        simp only [exbind_ok]
        split <;> simp
      · -- list content
        obtain ⟨t', ht'⟩ := wf_buildBlocks xs (fun x hx => hmsg x hx) maps
          (emptyTurn ((getk mkvs "role").getD ty) ((getk kvs "timestamp").getD (.str "")))
        refine exists_ok_of_ne_error _ ?_
        simp only [buildRecord, buildTurnOfRecord, pyGetItem, hty, exbind_ok,
          pyGet, hm, hc, pyIter] at ht' ⊢
        rw [if_neg hua, ht']
        simp only [exbind_ok]
        split <;> simp
      · -- dict content
        obtain ⟨t', ht'⟩ := wf_buildBlocks _ (keyBlocks_wf ckvs) maps
          (emptyTurn ((getk mkvs "role").getD ty) ((getk kvs "timestamp").getD (.str "")))
        refine exists_ok_of_ne_error _ ?_
        simp only [buildRecord, buildTurnOfRecord, pyGetItem, hty, exbind_ok,
          pyGet, hm, hc, pyIter] at ht' ⊢
        rw [if_neg hua, ht']
        simp only [exbind_ok]
        split <;> simp
  | null => simp [wfRecord] at hd
  | bool x => simp [wfRecord] at hd
  | num x => simp [wfRecord] at hd
  | str x => simp [wfRecord] at hd
  | arr x => simp [wfRecord] at hd

theorem wf_buildTurns (rs : List JVal) :
    (∀ d ∈ rs, wfRecord d = true) → ∀ maps, ∃ turns, buildTurns maps rs = .ok turns := by
  induction rs with
  | nil => exact fun _ maps => ⟨[], rfl⟩
  | cons d ds ih =>
    intro hall maps
    obtain ⟨o, ho⟩ := wf_buildRecord d (hall d (List.mem_cons_self d ds)) maps
    obtain ⟨ts, hts⟩ := ih (fun x hx => hall x (List.mem_cons_of_mem d hx)) maps
    cases o with
    | some t => exact ⟨t :: ts, by simp [buildTurns, ho, hts]⟩
    | none => exact ⟨ts, by simp [buildTurns, ho, hts]⟩

/-- C10 amended: a record lacking a type key aborts both passes rather
than being skipped; on well-formed records (dicts with a type key, a dict
or absent message, string/list/dict content with well-typed blocks) the
whole reconstruction completes without raising. -/
theorem C10_amended_total_on_wf :
    ∀ rs : List JVal, (∀ d ∈ rs, wfRecord d = true) →
    ∃ turns, parse_messages rs = .ok turns := by
  intro rs h
  obtain ⟨maps, hm⟩ := wf_collectToolResults rs h ⟨[], []⟩
  obtain ⟨turns, ht⟩ := wf_buildTurns rs h maps
  exact ⟨turns, by simp [parse_messages, hm, ht]⟩

theorem C10_amended_total_on_wf_witness :
    ∃ turns, parse_messages [mkRec (.str "user") (.str "user") (.str "") (.str "hi")] =
      .ok turns :=
  C10_amended_total_on_wf [mkRec (.str "user") (.str "user") (.str "") (.str "hi")]
    (by
      intro d hd
      rw [List.mem_singleton] at hd
      subst hd
      rfl)



theorem exbind_ok_inv {α β : Type} {e : Except Unit α} {f : α → Except Unit β} {v : β}
    (h : (e >>= f) = .ok v) : ∃ a, e = .ok a ∧ f a = .ok v := by
  cases e with
  | error u => simp [Bind.bind, Except.bind] at h
  | ok a => exact ⟨a, rfl, h⟩

theorem scalarEq_eq {a b : JVal} (h : scalarEq a b = true) : a = b := by
  cases a <;> cases b <;> simp [scalarEq] at h <;> simp [h]

theorem kvGet_kvSet_eq {α : Type} (m : List (JVal × α)) (k k' : JVal) (v : α)
    (h : scalarEq k' k = true) : kvGet (kvSet m k' v) k = some v := by
  have hk := scalarEq_eq h
  subst hk
  induction m with
  | nil => simp [kvSet, kvGet, h]
  | cons kv m ih =>
    obtain ⟨k0, v0⟩ := kv
    by_cases h0 : scalarEq k0 k' = true
    · have := scalarEq_eq h0
      subst this
      simp [kvSet, h0, kvGet, h]
    · rw [Bool.not_eq_true] at h0
      simp [kvSet, h0, kvGet, ih]

theorem kvGet_kvSet_ne {α : Type} (m : List (JVal × α)) (k k' : JVal) (v : α)
    (h : scalarEq k' k = false) : kvGet (kvSet m k' v) k = kvGet m k := by
  induction m with
  | nil => simp [kvSet, kvGet, h]
  | cons kv m ih =>
    obtain ⟨k0, v0⟩ := kv
    by_cases h0 : scalarEq k0 k' = true
    · have := scalarEq_eq h0
      subst this
      simp [kvSet, h0, kvGet, h]
    · rw [Bool.not_eq_true] at h0
      by_cases h1 : scalarEq k0 k = true
      · simp [kvSet, h0, kvGet, h1]
      · rw [Bool.not_eq_true] at h1
        simp [kvSet, h0, kvGet, h1, ih]

theorem collectBlock_lookup (maps : ResultMaps) (b : JVal) (m' : ResultMaps) (k : JVal)
    (h : collectBlock maps b = .ok m') :
    (isContrib k b = true →
      ∃ txt imgs, resultPayload (contentOf b) = .ok (txt, imgs) ∧
        kvGet m'.texts k = some (pyStrip txt) ∧
        kvGet m'.images k = (if imgs.isEmpty then kvGet maps.images k else some imgs)) ∧
    (isContrib k b = false →
      kvGet m'.texts k = kvGet maps.texts k ∧ kvGet m'.images k = kvGet maps.images k) := by
  cases b with
  | obj kvs =>
    by_cases ht : (objGet? kvs "type").isStr "tool_result"
    · rw [collectBlock, if_pos ht] at h
      obtain ⟨⟨txt, imgs⟩, hp, h⟩ := exbind_ok_inv h
      dsimp only [] at h
      split at h
      · rename_i htr
        split at h
        · exact absurd h (by simp)
        · rename_i hh
          rw [Except.ok.injEq] at h
          by_cases hk : scalarEq (objGetD kvs "tool_use_id" (.str "")) k = true
          · constructor
            · intro _
              refine ⟨txt, imgs, hp, ?_, ?_⟩
              · rw [← h]
                exact kvGet_kvSet_eq _ _ _ _ hk
              · rw [← h]
                by_cases hi : imgs.isEmpty = true
                · simp [hi]
                · simp only [hi, if_false, Bool.false_eq_true]
                  exact kvGet_kvSet_eq _ _ _ _ hk
            · intro hic
              simp [isContrib, ht, htr, hk] at hic
          · rw [Bool.not_eq_true] at hk
            constructor
            · intro hic
              simp [isContrib, ht, htr, hk] at hic
            · intro _
              constructor
              · rw [← h]
                exact kvGet_kvSet_ne _ _ _ _ hk
              · rw [← h]
                by_cases hi : imgs.isEmpty = true
                · simp [hi]
                · simp only [hi, if_false, Bool.false_eq_true]
                  exact kvGet_kvSet_ne _ _ _ _ hk
      · rename_i htr
        rw [Except.ok.injEq] at h
        rw [Bool.not_eq_true] at htr
        constructor
        · intro hic
          simp [isContrib, ht, htr] at hic
        · intro _
          rw [← h]
          exact ⟨rfl, rfl⟩
    · rw [collectBlock, if_neg ht] at h
      rw [Except.ok.injEq] at h
      rw [Bool.not_eq_true] at ht
      constructor
      · intro hic
        simp [isContrib, ht] at hic
      · intro _
        rw [← h]
        exact ⟨rfl, rfl⟩
  | null => exact ⟨fun hic => by simp [isContrib] at hic,
      fun _ => by rw [(Except.ok.inj h).symm]; exact ⟨rfl, rfl⟩⟩
  | bool x => exact ⟨fun hic => by simp [isContrib] at hic,
      fun _ => by rw [(Except.ok.inj h).symm]; exact ⟨rfl, rfl⟩⟩
  | num x => exact ⟨fun hic => by simp [isContrib] at hic,
      fun _ => by rw [(Except.ok.inj h).symm]; exact ⟨rfl, rfl⟩⟩
  | str x => exact ⟨fun hic => by simp [isContrib] at hic,
      fun _ => by rw [(Except.ok.inj h).symm]; exact ⟨rfl, rfl⟩⟩
  | arr x => exact ⟨fun hic => by simp [isContrib] at hic,
      fun _ => by rw [(Except.ok.inj h).symm]; exact ⟨rfl, rfl⟩⟩

theorem payloadOf_eq {b : JVal} {txt : String} {imgs : List String}
    (hp : resultPayload (contentOf b) = .ok (txt, imgs)) : payloadOf b = (txt, imgs) := by
  simp [payloadOf, hp, Except.toOption]

theorem collectBlocks_lookup (bs : List JVal) : ∀ (maps m' : ResultMaps) (k : JVal),
    collectBlocks maps bs = .ok m' →
    (match (bs.filter (isContrib k)).getLast? with
     | none => kvGet m'.texts k = kvGet maps.texts k
     | some b => ∃ txt imgs, resultPayload (contentOf b) = .ok (txt, imgs) ∧
         kvGet m'.texts k = some (pyStrip txt)) ∧
    (match ((bs.filter (isContrib k)).filter
        (fun b => !(payloadOf b).2.isEmpty)).getLast? with
     | none => kvGet m'.images k = kvGet maps.images k
     | some b => ∃ txt imgs, resultPayload (contentOf b) = .ok (txt, imgs) ∧ imgs ≠ [] ∧
         kvGet m'.images k = some imgs) := by
  induction bs with
  | nil =>
    intro maps m' k h
    rw [collectBlocks] at h
    rw [(Except.ok.inj h)]
    exact ⟨rfl, rfl⟩
  | cons b rest ih =>
    intro maps m' k h
    rw [collectBlocks] at h
    obtain ⟨m1, hb, hrest⟩ := exbind_ok_inv h
    have ihm := ih m1 m' k hrest
    have hbl := collectBlock_lookup maps b m1 k hb
    by_cases hc : isContrib k b = true
    · obtain ⟨txt, imgs, hp, htxt, himg⟩ := hbl.1 hc
      rw [List.filter_cons_of_pos hc]
      constructor
      · rcases hl : (rest.filter (isContrib k)).getLast? with _ | b'
        · have hnil : rest.filter (isContrib k) = [] := by
            cases hrf : rest.filter (isContrib k)
            · rfl
            · rw [hrf] at hl
              simp [List.getLast?] at hl
          rw [hnil]
          have ht1 := ihm.1
          rw [hnil] at ht1
          simp only [List.getLast?_singleton]
          exact ⟨txt, imgs, hp, by rw [ht1]; exact htxt⟩
        · have hne : rest.filter (isContrib k) ≠ [] := by
            intro hx
            rw [hx] at hl
            simp [List.getLast?] at hl
          obtain ⟨x, xs, hxs⟩ := List.exists_cons_of_ne_nil hne
          have hl' : (x :: xs).getLast? = some b' := by rw [← hxs]; exact hl
          rw [hxs, List.getLast?_cons_cons, hl']
          have ht1 := ihm.1
          rw [hl] at ht1
          exact ht1
      · have hpi := payloadOf_eq hp
        by_cases hie : imgs.isEmpty = true
        · rw [List.filter_cons_of_neg (by rw [hpi, hie]; decide)]
          rw [if_pos hie] at himg
          have ht2 := ihm.2
          rcases hl : ((rest.filter (isContrib k)).filter
              (fun b => !(payloadOf b).2.isEmpty)).getLast? with _ | b'
          · rw [hl] at ht2
            rw [ht2, himg]
          · rw [hl] at ht2
            exact ht2
        · rw [List.filter_cons_of_pos (by rw [hpi]; simp [hie])]
          rw [if_neg hie] at himg
          have ht2 := ihm.2
          rcases hl : ((rest.filter (isContrib k)).filter
              (fun b => !(payloadOf b).2.isEmpty)).getLast? with _ | b'
          · have hnil : (rest.filter (isContrib k)).filter
                (fun b => !(payloadOf b).2.isEmpty) = [] := by
              cases hrf : (rest.filter (isContrib k)).filter
                  (fun b => !(payloadOf b).2.isEmpty)
              · rfl
              · rw [hrf] at hl
                simp [List.getLast?] at hl
            rw [hnil]
            rw [hnil] at ht2
            simp only [List.getLast?_singleton]
            refine ⟨txt, imgs, hp, ?_, by rw [ht2]; exact himg⟩
            intro hx
            rw [hx] at hie
            exact hie rfl
          · have hne : (rest.filter (isContrib k)).filter
                (fun b => !(payloadOf b).2.isEmpty) ≠ [] := by
              intro hx
              rw [hx] at hl
              simp [List.getLast?] at hl
            obtain ⟨x, xs, hxs⟩ := List.exists_cons_of_ne_nil hne
            have hl' : (x :: xs).getLast? = some b' := by rw [← hxs]; exact hl
            rw [hxs, List.getLast?_cons_cons, hl']
            rw [hl] at ht2
            exact ht2
    · rw [Bool.not_eq_true] at hc
      obtain ⟨htxt, himg⟩ := hbl.2 hc
      rw [List.filter_cons_of_neg (by rw [hc]; exact Bool.false_ne_true)]
      constructor
      · have ht1 := ihm.1
        rcases hl : (rest.filter (isContrib k)).getLast? with _ | b'
        · rw [hl] at ht1
          rw [ht1, htxt]
        · rw [hl] at ht1
          exact ht1
      · have ht2 := ihm.2
        rcases hl : ((rest.filter (isContrib k)).filter
            (fun b => !(payloadOf b).2.isEmpty)).getLast? with _ | b'
        · rw [hl] at ht2
          rw [ht2, himg]
        · rw [hl] at ht2
          exact ht2

theorem keyBlocks_no_contrib (k : JVal) (kvs : List (String × JVal)) :
    (kvs.map (fun kv => JVal.str kv.1)).filter (isContrib k) = [] := by
  induction kvs with
  | nil => rfl
  | cons kv rest ih =>
    rw [List.map_cons, List.filter_cons_of_neg (by simp [isContrib])]
    exact ih

theorem collectRecord_lookup (d : JVal) (maps m' : ResultMaps) (k : JVal)
    (h : collectRecord maps d = .ok m') :
    (match ((userBlocks d).filter (isContrib k)).getLast? with
     | none => kvGet m'.texts k = kvGet maps.texts k
     | some b => ∃ txt imgs, resultPayload (contentOf b) = .ok (txt, imgs) ∧
         kvGet m'.texts k = some (pyStrip txt)) ∧
    (match (((userBlocks d).filter (isContrib k)).filter
        (fun b => !(payloadOf b).2.isEmpty)).getLast? with
     | none => kvGet m'.images k = kvGet maps.images k
     | some b => ∃ txt imgs, resultPayload (contentOf b) = .ok (txt, imgs) ∧ imgs ≠ [] ∧
         kvGet m'.images k = some imgs) := by
  rw [collectRecord] at h
  obtain ⟨ty, hty, h⟩ := exbind_ok_inv h
  cases d with
  | obj kvs =>
    rw [pyGetItem] at hty
    rcases hgk : getk kvs "type" with _ | ty0
    · rw [hgk] at hty
      exact absurd hty (by simp)
    · rw [hgk] at hty
      have hty0 : ty0 = ty := Except.ok.inj hty
      subst hty0
      by_cases hu : ty0.isStr "user" = true
      · rw [if_neg (by rw [hu]; decide)] at h
        obtain ⟨msgv, hmsg, h⟩ := exbind_ok_inv h
        rw [pyGet] at hmsg
        have hmv : (getk kvs "message").getD (.obj []) = msgv := Except.ok.inj hmsg
        obtain ⟨cv, hcv, h⟩ := exbind_ok_inv h
        rcases hmsgv : msgv with _ | b | n | t | xs | mkvs <;> rw [hmsgv] at hcv <;>
          rw [pyGet] at hcv <;> try exact Except.noConfusion hcv
        have hcvv : (getk mkvs "content").getD (.arr []) = cv := Except.ok.inj hcv
        rw [hmsgv] at hmv
        rcases hcc : cv with _ | b | n | t | xs | ckvs <;> rw [hcc] at h hcvv
        · exact absurd (exbind_ok_inv h).choose_spec.1 (by simp [pyIter])
        · exact absurd (exbind_ok_inv h).choose_spec.1 (by simp [pyIter])
        · exact absurd (exbind_ok_inv h).choose_spec.1 (by simp [pyIter])
        · -- string content: skipped
          have hub : userBlocks (JVal.obj kvs) = [] := by
            simp only [userBlocks, hgk, hu, if_true, objGetD, hmv, hcvv]
          rw [hub]
          have hmm' : maps = m' := Except.ok.inj h
          subst hmm'
          exact ⟨rfl, rfl⟩
        · -- list content
          have hub : userBlocks (JVal.obj kvs) = xs := by
            simp only [userBlocks, hgk, hu, if_true, objGetD, hmv, hcvv]
          rw [hub]
          obtain ⟨blocks, hbl, h⟩ := exbind_ok_inv h
          rw [pyIter] at hbl
          have hblv : xs = blocks := Except.ok.inj hbl
          subst hblv
          exact collectBlocks_lookup xs maps m' k h
        · -- dict content: keys iterated, no contributions
          have hub : userBlocks (JVal.obj kvs) = [] := by
            simp only [userBlocks, hgk, hu, if_true, objGetD, hmv, hcvv]
          rw [hub]
          obtain ⟨blocks, hbl, h⟩ := exbind_ok_inv h
          rw [pyIter] at hbl
          have hblv : ckvs.map (fun kv => JVal.str kv.1) = blocks := Except.ok.inj hbl
          subst hblv
          have hcb := collectBlocks_lookup _ maps m' k h
          rw [keyBlocks_no_contrib] at hcb
          exact hcb
      · rw [if_pos (by rw [Bool.not_eq_true] at hu; rw [hu]; decide)] at h
        have hmm' : maps = m' := Except.ok.inj h
        subst hmm'
        have hub : userBlocks (JVal.obj kvs) = [] := by
          rw [Bool.not_eq_true] at hu
          simp only [userBlocks, hgk, hu, if_false, Bool.false_eq_true]
        rw [hub]
        exact ⟨rfl, rfl⟩
  | null => exact absurd hty (by simp [pyGetItem])
  | bool x => exact absurd hty (by simp [pyGetItem])
  | num x => exact absurd hty (by simp [pyGetItem])
  | str x => exact absurd hty (by simp [pyGetItem])
  | arr x => exact absurd hty (by simp [pyGetItem])

theorem resultBlocksFor_cons (k d : JVal) (rest : List JVal) :
    resultBlocksFor k (d :: rest) =
      (userBlocks d).filter (isContrib k) ++ resultBlocksFor k rest := by
  simp [resultBlocksFor, List.filter_append]

theorem collectToolResults_lookup (rs : List JVal) : ∀ (maps m' : ResultMaps) (k : JVal),
    collectToolResults maps rs = .ok m' →
    (match (resultBlocksFor k rs).getLast? with
     | none => kvGet m'.texts k = kvGet maps.texts k
     | some b => ∃ txt imgs, resultPayload (contentOf b) = .ok (txt, imgs) ∧
         kvGet m'.texts k = some (pyStrip txt)) ∧
    (match ((resultBlocksFor k rs).filter (fun b => !(payloadOf b).2.isEmpty)).getLast? with
     | none => kvGet m'.images k = kvGet maps.images k
     | some b => ∃ txt imgs, resultPayload (contentOf b) = .ok (txt, imgs) ∧ imgs ≠ [] ∧
         kvGet m'.images k = some imgs) := by
  induction rs with
  | nil =>
    intro maps m' k h
    rw [collectToolResults] at h
    have hmm : maps = m' := Except.ok.inj h
    subst hmm
    exact ⟨rfl, rfl⟩
  | cons d rest ih =>
    intro maps m' k h
    rw [collectToolResults] at h
    obtain ⟨maps1, h1, h2⟩ := exbind_ok_inv h
    have hrec := collectRecord_lookup d maps maps1 k h1
    have hih := ih maps1 m' k h2
    rw [resultBlocksFor_cons]
    constructor
    · rw [List.getLast?_append]
      rcases hl : (resultBlocksFor k rest).getLast? with _ | b
      · rw [hl] at hih
        have ht := hih.1
        rw [Option.none_or]
        rcases hd : ((userBlocks d).filter (isContrib k)).getLast? with _ | b0
        · rw [hd] at hrec
          rw [ht, hrec.1]
        · rw [hd] at hrec
          obtain ⟨txt, imgs, hp, hk⟩ := hrec.1
          exact ⟨txt, imgs, hp, by rw [ht, hk]⟩
      · rw [hl] at hih
        exact hih.1
    · rw [List.filter_append, List.getLast?_append]
      rcases hl : ((resultBlocksFor k rest).filter
          (fun b => !(payloadOf b).2.isEmpty)).getLast? with _ | b
      · rw [hl] at hih
        have ht := hih.2
        rw [Option.none_or]
        rcases hd : (((userBlocks d).filter (isContrib k)).filter
            (fun b => !(payloadOf b).2.isEmpty)).getLast? with _ | b0
        · rw [hd] at hrec
          rw [ht, hrec.2]
        · rw [hd] at hrec
          obtain ⟨txt, imgs, hp, hne, hk⟩ := hrec.2
          exact ⟨txt, imgs, hp, hne, by rw [ht, hk]⟩
      · rw [hl] at hih
        exact hih.2


theorem resultPayloadList_text (l : List JVal) : ∀ (acc : String) (imgs0 : List String)
    (txt : String) (imgs : List String),
    resultPayloadList l acc imgs0 = .ok (txt, imgs) →
    txt.data = acc.data ++ trailJoin (textSubTexts l) := by
  induction l with
  | nil =>
    intro acc imgs0 txt imgs h
    rw [resultPayloadList] at h
    have hp := Except.ok.inj h
    rw [Prod.mk.injEq] at hp
    rw [← hp.1]
    simp [textSubTexts, trailJoin]
  | cons rc rcs ih =>
    intro acc imgs0 txt imgs h
    cases rc with
    | obj kvs =>
      rw [resultPayloadList] at h
      by_cases ht : (objGet? kvs "type").isStr "text" = true
      · rw [if_pos ht] at h
        rcases htx : objGetD kvs "text" (.str "") with _ | b | n | t | xs | okvs <;>
            rw [htx] at h <;> try exact Except.noConfusion h
        have := ih _ _ _ _ h
        rw [this]
        simp only [textSubTexts, List.filterMap_cons, ht, if_true, htx, trailJoin]
        rw [String.data_append, String.data_append]
        simp [textSubTexts]
      · rw [if_neg ht] at h
        have hsk : textSubTexts (JVal.obj kvs :: rcs) = textSubTexts rcs := by
          simp only [textSubTexts, List.filterMap_cons]
          rw [Bool.not_eq_true] at ht
          simp [ht]
        rw [hsk]
        by_cases hi : (objGet? kvs "type").isStr "image" = true
        · rw [if_pos hi] at h
          rcases hsv : objGetD kvs "source" (.obj []) with _ | b | n | t | xs | skvs <;>
              rw [hsv] at h <;> try exact Except.noConfusion h
          dsimp only [] at h
          by_cases hb : (objGet? skvs "type").isStr "base64" = true
          · rw [if_pos hb] at h
            exact ih _ _ _ _ h
          · rw [if_neg hb] at h
            exact ih _ _ _ _ h
        · rw [if_neg hi] at h
          exact ih _ _ _ _ h
    | null =>
      rw [show textSubTexts (JVal.null :: rcs) = textSubTexts rcs from by
        simp [textSubTexts, List.filterMap_cons]]
      exact ih _ _ _ _ h
    | bool b =>
      rw [show textSubTexts (JVal.bool b :: rcs) = textSubTexts rcs from by
        simp [textSubTexts, List.filterMap_cons]]
      exact ih _ _ _ _ h
    | num n =>
      rw [show textSubTexts (JVal.num n :: rcs) = textSubTexts rcs from by
        simp [textSubTexts, List.filterMap_cons]]
      exact ih _ _ _ _ h
    | str s =>
      rw [show textSubTexts (JVal.str s :: rcs) = textSubTexts rcs from by
        simp [textSubTexts, List.filterMap_cons]]
      exact ih _ _ _ _ h
    | arr xs =>
      rw [show textSubTexts (JVal.arr xs :: rcs) = textSubTexts rcs from by
        simp [textSubTexts, List.filterMap_cons]]
      exact ih _ _ _ _ h

theorem trailJoin_eq_joinNl (ts : List String) (h : ts ≠ []) :
    trailJoin ts = (joinNl ts).data ++ ['\n'] := by
  induction ts with
  | nil => exact absurd rfl h
  | cons t ts ih =>
    cases ts with
    | nil => simp [trailJoin, joinNl]
    | cons t2 ts2 =>
      have hj : joinNl (t :: t2 :: ts2) = t ++ "\n" ++ joinNl (t2 :: ts2) := rfl
      rw [trailJoin, ih (by simp), hj, String.data_append, String.data_append]
      simp

theorem stripChars_append_space (l : List Char) (c : Char) (hc : isPySpace c = true) :
    stripChars (l ++ [c]) = stripChars l := by
  rw [stripChars, stripChars, List.dropWhile_append]
  rcases hd : (l.dropWhile isPySpace) with _ | ⟨x, xs⟩
  · simp [List.dropWhile, hc]
  · simp only [List.isEmpty_cons]
    rw [if_neg (by simp)]
    rw [List.reverse_append]
    simp only [List.reverse_cons, List.reverse_nil, List.nil_append, List.singleton_append]
    rw [List.dropWhile_cons_of_pos hc]

theorem payload_strip_eq_spec (b : JVal) (txt : String) (imgs : List String)
    (h : resultPayload (contentOf b) = .ok (txt, imgs)) :
    pyStrip txt = specResultText b := by
  rcases hc : contentOf b with _ | bb | n | t | l | kvs <;> rw [hc] at h <;>
    simp only [specResultText, hc]
  · have hp := Except.ok.inj h
    rw [Prod.mk.injEq] at hp
    rw [← hp.1]; rfl
  · have hp := Except.ok.inj h
    rw [Prod.mk.injEq] at hp
    rw [← hp.1]; rfl
  · have hp := Except.ok.inj h
    rw [Prod.mk.injEq] at hp
    rw [← hp.1]; rfl
  · have hp := Except.ok.inj h
    rw [Prod.mk.injEq] at hp
    rw [← hp.1]
  · have htd := resultPayloadList_text l "" [] txt imgs h
    rw [show ("" : String).data = ([] : List Char) from rfl, List.nil_append] at htd
    rcases hts : textSubTexts l with _ | ⟨t0, ts0⟩
    · rw [hts] at htd
      rw [trailJoin] at htd
      rw [pyStrip, htd]
      rfl
    · rw [hts] at htd
      rw [trailJoin_eq_joinNl _ (by simp)] at htd
      rw [pyStrip, pyStrip, htd, stripChars_append_space _ _ (by rfl)]
  · have hp := Except.ok.inj h
    rw [Prod.mk.injEq] at hp
    rw [← hp.1]; rfl

theorem buildBlock_prov (maps : ResultMaps) (turn : Turn) (b : JVal) (turn' : Turn)
    (h : buildBlock maps turn b = .ok turn')
    (hall : ∀ tu ∈ turn.tool_uses,
      tu.result = (kvGet maps.texts tu.id).getD "" ∧
      tu.result_images = (kvGet maps.images tu.id).getD []) :
    ∀ tu ∈ turn'.tool_uses,
      tu.result = (kvGet maps.texts tu.id).getD "" ∧
      tu.result_images = (kvGet maps.images tu.id).getD [] := by
  cases b with
  | obj kvs =>
    rw [buildBlock] at h
    by_cases ht : (objGetD kvs "type" (.str "")).isStr "text" = true
    · rw [if_pos ht] at h
      obtain ⟨r, hr, h⟩ := exbind_ok_inv h
      dsimp only [] at h
      split at h
      · split at h
        · split at h
          · have hT := Except.ok.inj h
            rw [← hT]
            exact hall
          · have hT := Except.ok.inj h
            rw [← hT]
            exact hall
        · exact Except.noConfusion h
      · split at h
        · split at h
          · have hT := Except.ok.inj h
            rw [← hT]
            exact hall
          · have hT := Except.ok.inj h
            rw [← hT]
            exact hall
        · exact Except.noConfusion h
    · rw [if_neg ht] at h
      by_cases hu : (objGetD kvs "type" (.str "")).isStr "tool_use" = true
      · rw [if_pos hu] at h
        dsimp only [] at h
        split at h
        · exact Except.noConfusion h
        · have hT := Except.ok.inj h
          rw [← hT]
          intro tu htu
          rcases List.mem_append.1 htu with hm | hm
          · exact hall tu hm
          · rw [List.mem_singleton] at hm
            subst hm
            exact ⟨rfl, rfl⟩
      · rw [if_neg hu] at h
        by_cases hi : (objGetD kvs "type" (.str "")).isStr "image" = true
        · rw [if_pos hi] at h
          split at h
          · split at h
            · have hT := Except.ok.inj h
              rw [← hT]
              exact hall
            · have hT := Except.ok.inj h
              rw [← hT]
              exact hall
          · exact Except.noConfusion h
        · rw [if_neg hi] at h
          have hT := Except.ok.inj h
          rw [← hT]
          exact hall
  | null =>
    have hT := Except.ok.inj h
    rw [← hT]
    exact hall
  | bool x =>
    have hT := Except.ok.inj h
    rw [← hT]
    exact hall
  | num x =>
    have hT := Except.ok.inj h
    rw [← hT]
    exact hall
  | str x =>
    have hT := Except.ok.inj h
    rw [← hT]
    exact hall
  | arr x =>
    have hT := Except.ok.inj h
    rw [← hT]
    exact hall

theorem buildBlocks_prov (maps : ResultMaps) (bs : List JVal) : ∀ (turn turn' : Turn),
    buildBlocks maps turn bs = .ok turn' →
    (∀ tu ∈ turn.tool_uses,
      tu.result = (kvGet maps.texts tu.id).getD "" ∧
      tu.result_images = (kvGet maps.images tu.id).getD []) →
    ∀ tu ∈ turn'.tool_uses,
      tu.result = (kvGet maps.texts tu.id).getD "" ∧
      tu.result_images = (kvGet maps.images tu.id).getD [] := by
  induction bs with
  | nil =>
    intro turn turn' h hall
    rw [buildBlocks] at h
    have hT := Except.ok.inj h
    rw [← hT]
    exact hall
  | cons b bs ih =>
    intro turn turn' h hall
    rw [buildBlocks] at h
    obtain ⟨turn1, h1, h2⟩ := exbind_ok_inv h
    exact ih turn1 turn' h2 (buildBlock_prov maps turn b turn1 h1 hall)

theorem buildTurnOfRecord_prov (maps : ResultMaps) (d : JVal) (t : Turn)
    (h : buildTurnOfRecord maps d = .ok (some t)) :
    ∀ tu ∈ t.tool_uses,
      tu.result = (kvGet maps.texts tu.id).getD "" ∧
      tu.result_images = (kvGet maps.images tu.id).getD [] := by
  rw [buildTurnOfRecord] at h
  obtain ⟨ty, hty, h⟩ := exbind_ok_inv h
  split at h
  · exact Option.noConfusion (Except.ok.inj h)
  · obtain ⟨msg, hmsg, h⟩ := exbind_ok_inv h
    obtain ⟨role, hrole, h⟩ := exbind_ok_inv h
    obtain ⟨content0, hc0, h⟩ := exbind_ok_inv h
    obtain ⟨ts, hts, h⟩ := exbind_ok_inv h
    dsimp only [] at h
    obtain ⟨blocks, hbl, h⟩ := exbind_ok_inv h
    obtain ⟨turn1, h1, h2⟩ := exbind_ok_inv h
    have hT : some turn1 = some t := Except.ok.inj h2
    have hT2 : turn1 = t := Option.some.inj hT
    rw [← hT2]
    exact buildBlocks_prov maps blocks (emptyTurn role ts) turn1 h1
      (by intro tu htu; exact absurd htu (by simp [emptyTurn]))

theorem buildRecord_prov (maps : ResultMaps) (d : JVal) (t : Turn)
    (h : buildRecord maps d = .ok (some t)) :
    ∀ tu ∈ t.tool_uses,
      tu.result = (kvGet maps.texts tu.id).getD "" ∧
      tu.result_images = (kvGet maps.images tu.id).getD [] := by
  rw [buildRecord] at h
  obtain ⟨o, ho, h⟩ := exbind_ok_inv h
  match o with
  | some turn =>
    dsimp only [] at h
    split at h
    · have hT := Option.some.inj (Except.ok.inj h)
      rw [← hT]
      exact buildTurnOfRecord_prov maps d turn ho
    · exact Option.noConfusion (Except.ok.inj h)
  | none => exact Option.noConfusion (Except.ok.inj h)

theorem buildTurns_prov (maps : ResultMaps) (rs : List JVal) : ∀ (ts : List Turn),
    buildTurns maps rs = .ok ts → ∀ t ∈ ts, ∀ tu ∈ t.tool_uses,
      tu.result = (kvGet maps.texts tu.id).getD "" ∧
      tu.result_images = (kvGet maps.images tu.id).getD [] := by
  induction rs with
  | nil =>
    intro ts h
    rw [buildTurns] at h
    have hT := Except.ok.inj h
    rw [← hT]
    intro t ht
    exact absurd ht (by simp)
  | cons d ds ih =>
    intro ts h
    rw [buildTurns] at h
    obtain ⟨o, ho, h⟩ := exbind_ok_inv h
    obtain ⟨rest, hrest, h⟩ := exbind_ok_inv h
    match o with
    | some t0 =>
      have hT := Except.ok.inj h
      rw [← hT]
      intro t ht
      rcases List.mem_cons.1 ht with hm | hm
      · rw [hm]
        exact buildRecord_prov maps d t0 ho
      · exact ih rest hrest t hm
    | none =>
      have hT := Except.ok.inj h
      rw [← hT]
      exact ih rest hrest

/-- C1: for a correlation id `k` appearing in a tool_use block of a
reconstructed turn and in exactly one contributing tool_result block `b`
of the log, the reconstructed tool invocation's result text equals the
spec's result text for `b`: the trimmed newline-joined concatenation of
`b`'s text sub-blocks when its content is a list, and the trimmed string
itself when its content is a single string. -/
theorem C1_result_text (records : List JVal) (turns : List Turn) (k b : JVal)
    (hp : parse_messages records = .ok turns)
    (hb : resultBlocksFor k records = [b])
    (t : Turn) (ht : t ∈ turns) (tu : ToolUse) (htu : tu ∈ t.tool_uses)
    (hk : tu.id = k) :
    tu.result = specResultText b := by
  rw [parse_messages] at hp
  obtain ⟨maps, hmaps, hbt⟩ := exbind_ok_inv hp
  have hprov := buildTurns_prov maps records turns hbt t ht tu htu
  have hlook := (collectToolResults_lookup records ⟨[], []⟩ maps k hmaps).1
  rw [hb] at hlook
  obtain ⟨txt, imgs, hpay, hget⟩ := hlook
  rw [hprov.1, hk, hget]
  exact payload_strip_eq_spec b txt imgs hpay

theorem C1_result_text_witness :
    parse_messages
        [mkRec (.str "assistant") (.str "assistant") (.str "t0")
          (.arr [.obj [("type", .str "tool_use"), ("id", .str "tid1"),
                       ("name", .str "Bash"), ("input", .obj [])]]),
         mkRec (.str "user") (.str "user") (.str "t1")
          (.arr [.obj [("type", .str "tool_result"), ("tool_use_id", .str "tid1"),
                       ("content", .str " hi ")]])] =
      .ok [⟨.str "assistant", .str "t0", [],
            [⟨.str "Bash", .obj [], .str "tid1", "hi", []⟩], []⟩] ∧
    resultBlocksFor (.str "tid1")
        [mkRec (.str "assistant") (.str "assistant") (.str "t0")
          (.arr [.obj [("type", .str "tool_use"), ("id", .str "tid1"),
                       ("name", .str "Bash"), ("input", .obj [])]]),
         mkRec (.str "user") (.str "user") (.str "t1")
          (.arr [.obj [("type", .str "tool_result"), ("tool_use_id", .str "tid1"),
                       ("content", .str " hi ")]])] =
      [.obj [("type", .str "tool_result"), ("tool_use_id", .str "tid1"),
             ("content", .str " hi ")]] ∧
    (⟨.str "Bash", .obj [], .str "tid1", "hi", []⟩ : ToolUse).result =
      specResultText (.obj [("type", .str "tool_result"), ("tool_use_id", .str "tid1"),
                            ("content", .str " hi ")]) := by
  refine ⟨rfl, rfl, ?_⟩
  exact C1_result_text
    [mkRec (.str "assistant") (.str "assistant") (.str "t0")
      (.arr [.obj [("type", .str "tool_use"), ("id", .str "tid1"),
                   ("name", .str "Bash"), ("input", .obj [])]]),
     mkRec (.str "user") (.str "user") (.str "t1")
      (.arr [.obj [("type", .str "tool_result"), ("tool_use_id", .str "tid1"),
                   ("content", .str " hi ")]])]
    [⟨.str "assistant", .str "t0", [],
      [⟨.str "Bash", .obj [], .str "tid1", "hi", []⟩], []⟩]
    (.str "tid1")
    (.obj [("type", .str "tool_result"), ("tool_use_id", .str "tid1"),
           ("content", .str " hi ")])
    rfl rfl
    ⟨.str "assistant", .str "t0", [],
      [⟨.str "Bash", .obj [], .str "tid1", "hi", []⟩], []⟩
    (List.mem_cons_self _ _)
    ⟨.str "Bash", .obj [], .str "tid1", "hi", []⟩
    (List.mem_cons_self _ _)
    rfl

/-- C2 counterexample: two tool_result blocks for the same id `tid1`
with string contents "A" then "B" leave the correlation text "B" - the
later block overwrites the earlier one - not the file-order concatenation
("A\nB" or "AB") the claim asserts. -/
theorem C2_counterexample :
    collectToolResults ⟨[], []⟩
        [mkRec (.str "user") (.str "user") (.str "t0")
          (.arr [.obj [("type", .str "tool_result"), ("tool_use_id", .str "tid1"),
                       ("content", .str "A")],
                 .obj [("type", .str "tool_result"), ("tool_use_id", .str "tid1"),
                       ("content", .str "B")]])] =
      .ok ⟨[(.str "tid1", "B")], []⟩ ∧
    ("B" : String) ≠ "A\nB" ∧ ("B" : String) ≠ "AB" := by
  exact ⟨rfl, by decide, by decide⟩

/-- C2 amended: when the same correlation id appears in several
tool_result blocks, the mapping's text for that id is the stripped text
of the LAST contributing block in file order (each block overwrites the
previous entry; nothing is concatenated), and the images entry is the
image list of the last contributing block that carries a non-empty image
list (absent when none does); building the mapping does not fail on
duplicates as such. -/
theorem C2_last_result_wins (records : List JVal) (maps : ResultMaps) (k b : JVal)
    (h : collectToolResults ⟨[], []⟩ records = .ok maps)
    (hlast : (resultBlocksFor k records).getLast? = some b) :
    ∃ txt imgs, resultPayload (contentOf b) = .ok (txt, imgs) ∧
      kvGet maps.texts k = some (pyStrip txt) ∧
      (match ((resultBlocksFor k records).filter
          (fun b0 => !(payloadOf b0).2.isEmpty)).getLast? with
       | none => kvGet maps.images k = none
       | some b1 => ∃ txt1 imgs1, resultPayload (contentOf b1) = .ok (txt1, imgs1) ∧
           imgs1 ≠ [] ∧ kvGet maps.images k = some imgs1) := by
  have hlook := collectToolResults_lookup records ⟨[], []⟩ maps k h
  have h1 := hlook.1
  rw [hlast] at h1
  obtain ⟨txt, imgs, hpay, hget⟩ := h1
  refine ⟨txt, imgs, hpay, hget, ?_⟩
  have h2 := hlook.2
  rcases hl : ((resultBlocksFor k records).filter
      (fun b0 => !(payloadOf b0).2.isEmpty)).getLast? with _ | b1
  · rw [hl] at h2
    exact h2
  · rw [hl] at h2
    exact h2

theorem C2_last_result_wins_witness :
    collectToolResults ⟨[], []⟩
        [mkRec (.str "user") (.str "user") (.str "t0")
          (.arr [.obj [("type", .str "tool_result"), ("tool_use_id", .str "tid1"),
                       ("content", .str "A")],
                 .obj [("type", .str "tool_result"), ("tool_use_id", .str "tid1"),
                       ("content", .str "B")]])] =
      .ok ⟨[(.str "tid1", "B")], []⟩ ∧
    (resultBlocksFor (.str "tid1")
        [mkRec (.str "user") (.str "user") (.str "t0")
          (.arr [.obj [("type", .str "tool_result"), ("tool_use_id", .str "tid1"),
                       ("content", .str "A")],
                 .obj [("type", .str "tool_result"), ("tool_use_id", .str "tid1"),
                       ("content", .str "B")]])]).getLast? =
      some (.obj [("type", .str "tool_result"), ("tool_use_id", .str "tid1"),
                  ("content", .str "B")]) ∧
    (∃ txt imgs,
      resultPayload (contentOf (.obj [("type", .str "tool_result"),
          ("tool_use_id", .str "tid1"), ("content", .str "B")])) = .ok (txt, imgs) ∧
      kvGet (ResultMaps.mk [(.str "tid1", "B")] []).texts (.str "tid1") =
        some (pyStrip txt) ∧
      (match ((resultBlocksFor (.str "tid1")
          [mkRec (.str "user") (.str "user") (.str "t0")
            (.arr [.obj [("type", .str "tool_result"), ("tool_use_id", .str "tid1"),
                         ("content", .str "A")],
                   .obj [("type", .str "tool_result"), ("tool_use_id", .str "tid1"),
                         ("content", .str "B")]])]).filter
          (fun b0 => !(payloadOf b0).2.isEmpty)).getLast? with
       | none => kvGet (ResultMaps.mk [(.str "tid1", "B")] []).images (.str "tid1") = none
       | some b1 => ∃ txt1 imgs1, resultPayload (contentOf b1) = .ok (txt1, imgs1) ∧
           imgs1 ≠ [] ∧
           kvGet (ResultMaps.mk [(.str "tid1", "B")] []).images (.str "tid1") =
             some imgs1)) := by
  refine ⟨rfl, rfl, ?_⟩
  exact C2_last_result_wins
    [mkRec (.str "user") (.str "user") (.str "t0")
      (.arr [.obj [("type", .str "tool_result"), ("tool_use_id", .str "tid1"),
                   ("content", .str "A")],
             .obj [("type", .str "tool_result"), ("tool_use_id", .str "tid1"),
                   ("content", .str "B")]])]
    ⟨[(.str "tid1", "B")], []⟩
    (.str "tid1")
    (.obj [("type", .str "tool_result"), ("tool_use_id", .str "tid1"),
           ("content", .str "B")])
    rfl rfl
